import Mathlib

/-!
# newsapi: request validation, error mapping and the HTTP handlers

A shallow embedding of the Go packages `internal/news`, `internal/handler`,
`internal/store` and `internal/logger`.

Conventions of the embedding.

* A Go `error` value is a `GoError`; the `error` interface holding nil is `none`.
* A Go pointer `*T` is an `Option T`, nil being `none`.
* A Go run-time panic is `Except.error` in the `Except Panic` monad; a handler
  that panics leaves a `handler.Failure`, which keeps the store and the calls made.
* Calls into libraries outside the repository (`time.Parse`, `url.Parse`,
  `uuid.Parse`, `encoding/json`) are fields of `Lib`: every theorem holds for every
  behaviour of these functions that their signatures allow.
* Logging (`log.Info`, `log.Error`) writes to the logger only and is left out.
* The database behind `bun.IDB` is the parameter `news.IDB` of the SQL-backed store.
* The in-memory store holds pointers; the objects they point to live in a heap.
-/

set_option autoImplicit false

/-! ## Go run-time values shared by the packages -/

/-- A run-time panic of the Go program: a nil pointer dereference, or the panic
"invalid WriteHeader code" of `net/http`. -/
inductive Panic where
  | nilDereference
  | invalidWriteHeaderCode (code : Int)
deriving DecidableEq, Repr

deriving instance DecidableEq for Except

/-- The 16 bytes of a `uuid.UUID`, read as one number. -/
structure UUID where
  val : Nat
deriving DecidableEq, Repr

/-- The zero `uuid.UUID` (`uuid.Nil`). -/
def UUID.Nil : UUID := ⟨0⟩

/-- A `time.Time` instant: nanoseconds counted from Go's zero time
(January 1 of year 1, 00:00:00 UTC). -/
structure Time where
  nanos : Int
deriving DecidableEq, Repr

/-- The zero value `time.Time{}`. -/
def Time.zero : Time := ⟨0⟩

/-- A Go slice: nil is `none`, a non-nil slice is `some` of its elements. -/
abbrev Slice (α : Type) := Option (List α)

/-- The builtin `len` on a slice; the nil slice has length 0. -/
def Slice.len {α : Type} : Slice α → Nat
  | none => 0
  | some xs => xs.length

/-- Values of Go's `error` interface that this program builds or inspects.

* `errorString` is what `errors.New` and `fmt.Errorf` (without `%w`) return.
* `libError` is an error value made by a library outside the repository
  (`*time.ParseError`, `*url.Error`); only its text is observed.
* `errNoRows` is the sentinel `sql.ErrNoRows`.
* `wrapError` is what `fmt.Errorf` returns for a format with one `%w`.
* `joinError` is what `errors.Join` returns.
* `customError` is a `*news.CustomError`; its cause may be nil. -/
inductive GoError where
  | errorString (s : String)
  | libError (s : String)
  | errNoRows
  | wrapError (msg : String) (err : GoError)
  | joinError (errs : List GoError)
  | customError (err : Option GoError) (httpStatus : Int)
deriving Repr

namespace GoError

mutual
/-- The method `Error() string` of each error type. `CustomError.Error` calls
`ce.err.Error()` and so panics on a nil cause; `joinError.Error` puts a newline
between the texts of its members. -/
def Error : GoError → Except Panic String
  | errorString s => .ok s
  | libError s => .ok s
  | errNoRows => .ok "sql: no rows in result set"
  | wrapError msg _ => .ok msg
  | joinError errs => ErrorJoined errs
  | customError none _ => .error Panic.nilDereference
  | customError (some e) _ => Error e
/-- The loop of `joinError.Error` over the members. -/
def ErrorJoined : List GoError → Except Panic String
  | [] => .ok ""
  | [e] => Error e
  | e :: e2 :: es =>
    match Error e with
    | .error p => .error p
    | .ok a =>
      match ErrorJoined (e2 :: es) with
      | .error p => .error p
      | .ok b => .ok (a ++ "\n" ++ b)
end

end GoError

/-- The function `errors.Join`: nil arguments are dropped; the result is nil when
nothing is left, and a `joinError` of the remaining errors otherwise. -/
def errorsJoin (errs : List (Option GoError)) : Option GoError :=
  match errs.filterMap id with
  | [] => none
  | e :: es => some (GoError.joinError (e :: es))

mutual
/-- The call `errors.Is(err, sql.ErrNoRows)`: walks the tree of `err` through
`Unwrap() error` and `Unwrap() []error`, looking for the sentinel itself. -/
def errorsIsNoRows : GoError → Bool
  | .errorString _ => false
  | .libError _ => false
  | .errNoRows => true
  | .wrapError _ err => errorsIsNoRows err
  | .joinError errs => errorsIsNoRowsAny errs
  | .customError none _ => false
  | .customError (some e) _ => errorsIsNoRows e
/-- The loop of `errors.Is` over the members a `joinError` unwraps to. -/
def errorsIsNoRowsAny : List GoError → Bool
  | [] => false
  | e :: es => errorsIsNoRows e || errorsIsNoRowsAny es
end

/-! ## Status codes of `net/http` -/

namespace http

/-- The status `http.StatusOK`. -/
def StatusOK : Int := 200
/-- The status `http.StatusCreated`. -/
def StatusCreated : Int := 201
/-- The status `http.StatusNoContent`. -/
def StatusNoContent : Int := 204
/-- The status `http.StatusBadRequest`. -/
def StatusBadRequest : Int := 400
/-- The status `http.StatusNotFound`. -/
def StatusNotFound : Int := 404
/-- The status `http.StatusInternalServerError`. -/
def StatusInternalServerError : Int := 500

end http

/-! ## Package `news`: the record and the error type -/

namespace news

/-- The struct `news.Record` (the embedded `bun.BaseModel` carries no data). -/
structure Record where
  ID : UUID
  Author : String
  Title : String
  Summary : String
  Content : String
  Source : String
  Tags : Slice String
  CreatedAt : Time
  UpdatedAt : Time
  DeletedAt : Time
deriving DecidableEq, Repr

/-- The struct `news.CustomError`: a cause and an HTTP status. -/
structure CustomError where
  err : Option GoError
  httpStatus : Int
deriving Repr

/-- The function `NewCustomError`. -/
def NewCustomError (err : Option GoError) (httpStatus : Int) : CustomError :=
  { err := err, httpStatus := httpStatus }

/-- The method `CustomError.Error`: `ce.err.Error()`, a nil dereference when the
cause is nil. -/
def CustomError.Error (ce : CustomError) : Except Panic String :=
  match ce.err with
  | none => .error Panic.nilDereference
  | some e => e.Error

/-- The method `CustomError.Unwrap`. -/
def CustomError.Unwrap (ce : CustomError) : Option GoError := ce.err

/-- The method `CustomError.HTTPStatusCode`. -/
def CustomError.HTTPStatusCode (ce : CustomError) : Int := ce.httpStatus

/-- A `*CustomError` stored in a variable of interface type `error`. -/
def CustomError.toError (ce : CustomError) : GoError :=
  GoError.customError ce.err ce.httpStatus

end news

mutual
/-- The call `errors.As(err, &dbErr)` for `var dbErr *news.CustomError`: the first
`*CustomError` of the tree of `err`, visited depth first through `Unwrap() error`
and `Unwrap() []error`; `none` when `errors.As` reports false. -/
def errorsAsCustomError : GoError → Option news.CustomError
  | .errorString _ => none
  | .libError _ => none
  | .errNoRows => none
  | .wrapError _ err => errorsAsCustomError err
  | .joinError errs => errorsAsCustomErrorAny errs
  | .customError err httpStatus => some { err := err, httpStatus := httpStatus }
/-- The loop of `errors.As` over the members a `joinError` unwraps to. -/
def errorsAsCustomErrorAny : List GoError → Option news.CustomError
  | [] => none
  | e :: es =>
    match errorsAsCustomError e with
    | some ce => some ce
    | none => errorsAsCustomErrorAny es
end

/-! ## Package `handler`: the request body and its validation -/

namespace handler

/-- The struct `handler.NewsPostReqBody`. -/
structure NewsPostReqBody where
  ID : UUID
  Author : String
  Title : String
  Summary : String
  CreatedAt : String
  Content : String
  Source : String
  Tags : Slice String
deriving DecidableEq, Repr

/-- The library functions the handlers call, as their signatures describe them.
A failing call gives the text of the error it returns. -/
structure Lib where
  /-- The type `url.URL`. -/
  URL : Type
  /-- The call `time.Parse(time.RFC3339, s)`. -/
  timeParse : String → Except String Time
  /-- The call `url.Parse(s)`. -/
  urlParse : String → Except String URL
  /-- The method `(*url.URL).String`. -/
  urlString : URL → String
  /-- The call `uuid.Parse(s)`. -/
  uuidParse : String → Except String UUID
  /-- The call `json.NewDecoder(r.Body).Decode(&newsRequestBody)` on a zero
  `NewsPostReqBody`, given the bytes of the body. -/
  jsonDecode : String → Except String NewsPostReqBody
  /-- The marshalling step of `json.NewEncoder(w).Encode(AllNewsResponse ...)`:
  the bytes to write, or the marshalling error. -/
  jsonMarshalAll : Slice (Option news.Record) → Except String String
  /-- The marshalling step of `json.NewEncoder(w).Encode(&n)` for `n *news.Record`. -/
  jsonMarshalOne : Option news.Record → Except String String

/-- The call `fmt.Errorf(format, arg)` for a format that is `text` followed by one
`%s` verb. -/
def fmtErrorf (text : String) (arg : String) : GoError :=
  GoError.errorString (text ++ arg)

/-- The method `NewsPostReqBody.Validate`. -/
def NewsPostReqBody.Validate (lib : Lib) (n : NewsPostReqBody) :
    Except Panic (Option news.Record × Option GoError) :=
  let record : Option news.Record := none
  let errs : Option GoError := none
  let errs := if n.Author = "" then
    errorsJoin [errs, some (fmtErrorf "author is empty: " n.Author)] else errs
  let errs := if n.Title = "" then
    errorsJoin [errs, some (fmtErrorf "title is empty: " n.Title)] else errs
  let errs := if n.Content = "" then
    errorsJoin [errs, some (fmtErrorf "content is empty: " n.Content)] else errs
  let errs := if n.Summary = "" then
    errorsJoin [errs, some (fmtErrorf "summary is empty: " n.Summary)] else errs
  let t : Time := match lib.timeParse n.CreatedAt with
    | .ok t => t
    | .error _ => Time.zero
  let errs := match lib.timeParse n.CreatedAt with
    | .ok _ => errs
    | .error msg => errorsJoin [errs, some (GoError.libError msg)]
  let errs := if n.Source = "" then
    errorsJoin [errs, some (fmtErrorf "source is empty: " n.Source)] else errs
  let parsedURL : Option lib.URL := match lib.urlParse n.Source with
    | .ok u => some u
    | .error _ => none
  let errs := match lib.urlParse n.Source with
    | .ok _ => errs
    | .error msg => errorsJoin [errs, some (GoError.libError msg)]
  let errs := if n.Tags.len = 0 then
    errorsJoin [errs, some (GoError.errorString "tags cannot be empty")] else errs
  match errs with
  | some e => .ok (record, some e)
  | none =>
    match parsedURL with
    | none => .error Panic.nilDereference
    | some u =>
      .ok (some
        { ID := n.ID
          Author := n.Author
          Title := n.Title
          Content := n.Content
          Summary := n.Summary
          CreatedAt := t
          Source := lib.urlString u
          Tags := n.Tags
          UpdatedAt := Time.zero
          DeletedAt := Time.zero }, none)

/-! ## Package `handler`: the HTTP handlers -/

/-- What a handler reads of `*http.Request`: the bytes of the body and the path
value `news_id`. -/
structure Request where
  Body : String
  news_id : String
deriving DecidableEq, Repr

/-- An `http.ResponseWriter`, with the bookkeeping of `httptest.ResponseRecorder`
(the writer the tests read the status from): `Code` is the status of the response,
fixed by the first `WriteHeader`; `Body` collects the bytes handed to `Write`;
`writeErr` is the error, if any, that `Write` reports back to the handler. -/
structure ResponseWriter where
  Code : Int
  wroteHeader : Bool
  Body : String
  writeErr : Option String
deriving DecidableEq, Repr

/-- The writer a handler is called with: no header written yet (so the status is
200 unless the handler sets another one) and an empty body. -/
def freshWriter (writeErr : Option String) : ResponseWriter :=
  { Code := 200, wroteHeader := false, Body := "", writeErr := writeErr }

/-- The function `httptest.NewRecorder`: a fresh writer whose writes succeed. -/
def NewRecorder : ResponseWriter := freshWriter none

/-- The method `WriteHeader`: a call after the header was written does nothing;
otherwise `checkWriteHeaderCode` panics for a code below 100 or above 999, and any
other code becomes the status. -/
def ResponseWriter.WriteHeader (w : ResponseWriter) (statusCode : Int) :
    Except Panic ResponseWriter :=
  if w.wroteHeader then .ok w
  else if statusCode < 100 ∨ 999 < statusCode then
    .error (Panic.invalidWriteHeaderCode statusCode)
  else .ok { w with Code := statusCode, wroteHeader := true }

/-- The method `Write`: writes the header with status 200 when none was written
yet, then takes the bytes; the second component is the error it returns. -/
def ResponseWriter.Write (w : ResponseWriter) (buf : String) :
    ResponseWriter × Option String :=
  let w :=
    if w.wroteHeader then w else { w with Code := http.StatusOK, wroteHeader := true }
  ({ w with Body := w.Body ++ buf }, w.writeErr)

/-- The call `json.NewEncoder(w).Encode(v)`, given the outcome of marshalling `v`:
a marshalling error is returned before anything is written; otherwise the bytes
and a newline go to `w.Write`, whose error is returned. -/
def jsonEncode (marshalled : Except String String) (w : ResponseWriter) :
    ResponseWriter × Option String :=
  match marshalled with
  | .error msg => (w, some msg)
  | .ok b => w.Write (b ++ "\n")

/-- The interface `handler.NewsStorer` over a store whose state has type `σ`: each
method takes the state before the call and gives its return values and the state
after it. -/
structure NewsStorer (σ : Type) where
  Create : Option news.Record → σ → (Option news.Record × Option GoError) × σ
  FindByID : UUID → σ → (Option news.Record × Option GoError) × σ
  FindAll : σ → (Slice (Option news.Record) × Option GoError) × σ
  DeleteByID : UUID → σ → Option GoError × σ
  UpdateByID : UUID → Option news.Record → σ → Option GoError × σ

/-- One call of a handler on the store, with its arguments. -/
inductive StoreCall where
  | Create (n : Option news.Record)
  | FindByID (id : UUID)
  | FindAll
  | DeleteByID (id : UUID)
  | UpdateByID (id : UUID) (n : Option news.Record)
deriving DecidableEq, Repr

/-- What a handler leaves behind when it returns: the response writer, the state
of the store, and the calls it made on the store, in order. -/
structure Outcome (σ : Type) where
  w : ResponseWriter
  store : σ
  calls : List StoreCall

/-- What a handler leaves behind when it panics: the panic, the state of the store,
and the calls it made on the store until then, in order. -/
structure Failure (σ : Type) where
  panic : Panic
  store : σ
  calls : List StoreCall

/-- The calls on the store during a run of a handler, whether it returned or
panicked. -/
def callsOf {σ : Type} (res : Except (Failure σ) (Outcome σ)) : List StoreCall :=
  match res with
  | .ok out => out.calls
  | .error f => f.calls

/-- The state of the store after a run of a handler, whether it returned or
panicked. -/
def storeOf {σ : Type} (res : Except (Failure σ) (Outcome σ)) : σ :=
  match res with
  | .ok out => out.store
  | .error f => f.store

/-- The block shared by the five handlers for a store error `err`:
`errors.As(err, &dbErr)` gives the status of `dbErr`, anything else gives 500. -/
def writeStoreError (w : ResponseWriter) (err : GoError) : Except Panic ResponseWriter :=
  match errorsAsCustomError err with
  | some dbErr => w.WriteHeader dbErr.HTTPStatusCode
  | none => w.WriteHeader http.StatusInternalServerError

/-- The end of a path of a handler: after the call of `WriteHeader` whose outcome is
`w` the handler returns, leaving the store `s` and the calls `calls` behind; a panic
of `WriteHeader` ends the handler, the store and the calls being what they are. -/
def respond {σ : Type} (w : Except Panic ResponseWriter) (s : σ) (calls : List StoreCall) :
    Except (Failure σ) (Outcome σ) :=
  match w with
  | .error p => .error { panic := p, store := s, calls := calls }
  | .ok w => .ok { w := w, store := s, calls := calls }

/-- The handler `PostNews`. -/
def PostNews {σ : Type} (lib : Lib) (ns : NewsStorer σ) (w : ResponseWriter) (r : Request)
    (s : σ) : Except (Failure σ) (Outcome σ) :=
  match lib.jsonDecode r.Body with
  | .error _ => respond (w.WriteHeader http.StatusBadRequest) s []
  | .ok newsRequestBody =>
    match newsRequestBody.Validate lib with
    | .error p => .error { panic := p, store := s, calls := [] }
    | .ok (_, some err) =>
      match w.WriteHeader http.StatusBadRequest with
      | .error p => .error { panic := p, store := s, calls := [] }
      | .ok w =>
        match err.Error with
        | .error p => .error { panic := p, store := s, calls := [] }
        | .ok text =>
          match w.Write text with
          | (w, some _) => respond (w.WriteHeader http.StatusInternalServerError) s []
          | (w, none) => .ok { w := w, store := s, calls := [] }
    | .ok (n, none) =>
      match ns.Create n s with
      | ((_, some err), s) =>
        respond (writeStoreError w err) s [StoreCall.Create n]
      | ((_, none), s) =>
        respond (w.WriteHeader http.StatusCreated) s [StoreCall.Create n]

/-- The handler `GetAllNews`. -/
def GetAllNews {σ : Type} (lib : Lib) (ns : NewsStorer σ) (w : ResponseWriter)
    (_r : Request) (s : σ) : Except (Failure σ) (Outcome σ) :=
  match ns.FindAll s with
  | ((_, some err), s) =>
    respond (writeStoreError w err) s [StoreCall.FindAll]
  | ((n, none), s) =>
    match jsonEncode (lib.jsonMarshalAll n) w with
    | (w, some _) =>
      respond (w.WriteHeader http.StatusInternalServerError) s [StoreCall.FindAll]
    | (w, none) => .ok { w := w, store := s, calls := [StoreCall.FindAll] }

/-- The handler `GetNewsByID`. -/
def GetNewsByID {σ : Type} (lib : Lib) (ns : NewsStorer σ) (w : ResponseWriter)
    (r : Request) (s : σ) : Except (Failure σ) (Outcome σ) :=
  match lib.uuidParse r.news_id with
  | .error _ => respond (w.WriteHeader http.StatusBadRequest) s []
  | .ok newsUUID =>
    match ns.FindByID newsUUID s with
    | ((_, some err), s) =>
      respond (writeStoreError w err) s [StoreCall.FindByID newsUUID]
    | ((n, none), s) =>
      match jsonEncode (lib.jsonMarshalOne n) w with
      | (w, some _) =>
        respond (w.WriteHeader http.StatusInternalServerError) s [StoreCall.FindByID newsUUID]
      | (w, none) => .ok { w := w, store := s, calls := [StoreCall.FindByID newsUUID] }

/-- The handler `UpdateNewsByID`. Reading `n.ID` dereferences the record that
`Validate` returned. -/
def UpdateNewsByID {σ : Type} (lib : Lib) (ns : NewsStorer σ) (w : ResponseWriter)
    (r : Request) (s : σ) : Except (Failure σ) (Outcome σ) :=
  match lib.jsonDecode r.Body with
  | .error _ => respond (w.WriteHeader http.StatusBadRequest) s []
  | .ok newsRequestBody =>
    match newsRequestBody.Validate lib with
    | .error p => .error { panic := p, store := s, calls := [] }
    | .ok (_, some err) =>
      match w.WriteHeader http.StatusBadRequest with
      | .error p => .error { panic := p, store := s, calls := [] }
      | .ok w =>
        match err.Error with
        | .error p => .error { panic := p, store := s, calls := [] }
        | .ok text =>
          match w.Write text with
          | (w, some _) => respond (w.WriteHeader http.StatusInternalServerError) s []
          | (w, none) => .ok { w := w, store := s, calls := [] }
    | .ok (none, none) => .error { panic := Panic.nilDereference, store := s, calls := [] }
    | .ok (some rec, none) =>
      match ns.UpdateByID rec.ID (some rec) s with
      | (some err, s) =>
        respond (writeStoreError w err) s [StoreCall.UpdateByID rec.ID (some rec)]
      | (none, s) =>
        .ok { w := w, store := s, calls := [StoreCall.UpdateByID rec.ID (some rec)] }

/-- The handler `DeleteNewsByID`. -/
def DeleteNewsByID {σ : Type} (lib : Lib) (ns : NewsStorer σ) (w : ResponseWriter)
    (r : Request) (s : σ) : Except (Failure σ) (Outcome σ) :=
  match lib.uuidParse r.news_id with
  | .error _ => respond (w.WriteHeader http.StatusBadRequest) s []
  | .ok newsUUID =>
    match ns.DeleteByID newsUUID s with
    | (some err, s) =>
      respond (writeStoreError w err) s [StoreCall.DeleteByID newsUUID]
    | (none, s) =>
      respond (w.WriteHeader http.StatusNoContent) s [StoreCall.DeleteByID newsUUID]

end handler

/-! ## Package `news`: the SQL-backed store -/

namespace news

/-- The interface `sql.Result`, as far as `UpdateByID` reads it: the two return
values of `RowsAffected()`. -/
structure SqlResult where
  RowsAffected : Except GoError Int

/-- The queries the store sends through `bun.IDB`, over a database whose state has
type `σ`. Each field is one query chain of `store.go`, given the state before it
and giving what the chain returns and the state after it.

* `insert` is `NewInsert().Model(news).Returning("*").Scan(ctx, news)`; on success
  it gives the row scanned back into `news`.
* `selectByID` is `NewSelect().Model(&news).Where("id = ?", id).Scan(ctx)`.
* `selectAll` is `NewSelect().Model(&Record{}).Scan(ctx, &news)`.
* `delete` is `NewDelete().Model(&Record{}).Where("id = ?", id).Returning("NULL").Exec(ctx)`;
  only its error is read.
* `update` is `NewUpdate().Model(news).Where("id = ?", id).Returning("NULL").Exec(ctx)`. -/
structure IDB (σ : Type) where
  insert : Record → σ → Except GoError Record × σ
  selectByID : UUID → σ → Except GoError Record × σ
  selectAll : σ → Except GoError (Slice (Option Record)) × σ
  delete : UUID → σ → Option GoError × σ
  update : UUID → Option Record → σ → Except GoError SqlResult × σ

/-- The struct `news.Store`. -/
structure Store (σ : Type) where
  db : IDB σ

/-- The function `NewStore`. -/
def NewStore {σ : Type} (db : IDB σ) : Store σ := { db := db }

/-- The method `Store.Create`; `newID` is what `uuid.New()` returns in this call.
Assigning `news.ID` dereferences `news`. -/
def Store.Create {σ : Type} (s : Store σ) (newID : UUID) (news : Option Record) (st : σ) :
    Except Panic ((Option Record × Option GoError) × σ) :=
  match news with
  | none => .error Panic.nilDereference
  | some news =>
    let news := { news with ID := newID }
    match s.db.insert news st with
    | (.error err, st) =>
      .ok ((none, some (NewCustomError (some err) http.StatusInternalServerError).toError), st)
    | (.ok news, st) => .ok ((some news, none), st)

/-- The method `Store.FindByID`. -/
def Store.FindByID {σ : Type} (s : Store σ) (id : UUID) (st : σ) :
    (Option Record × Option GoError) × σ :=
  match s.db.selectByID id st with
  | (.error err, st) =>
    if errorsIsNoRows err then
      ((none, some (NewCustomError (some err) http.StatusNotFound).toError), st)
    else
      ((none, some (NewCustomError (some err) http.StatusInternalServerError).toError), st)
  | (.ok news, st) => ((some news, none), st)

/-- The method `Store.FindAll`. -/
def Store.FindAll {σ : Type} (s : Store σ) (st : σ) :
    (Slice (Option Record) × Option GoError) × σ :=
  match s.db.selectAll st with
  | (.error err, st) =>
    ((none, some (NewCustomError (some err) http.StatusInternalServerError).toError), st)
  | (.ok news, st) => ((news, none), st)

/-- The method `Store.DeleteByID`. -/
def Store.DeleteByID {σ : Type} (s : Store σ) (id : UUID) (st : σ) : Option GoError × σ :=
  match s.db.delete id st with
  | (some err, st) =>
    if errorsIsNoRows err then (none, st)
    else (some (NewCustomError (some err) http.StatusInternalServerError).toError, st)
  | (none, st) => (none, st)

/-- The method `Store.UpdateByID`. After `RowsAffected` has succeeded the variable
`err` holds nil, and that is the cause handed to `NewCustomError` for zero rows. -/
def Store.UpdateByID {σ : Type} (s : Store σ) (id : UUID) (news : Option Record) (st : σ) :
    Option GoError × σ :=
  match s.db.update id news st with
  | (.error err, st) =>
    (some (NewCustomError (some err) http.StatusInternalServerError).toError, st)
  | (.ok r, st) =>
    match r.RowsAffected with
    | .error err =>
      (some (NewCustomError (some err) http.StatusInternalServerError).toError, st)
    | .ok rowsAffected =>
      let err : Option GoError := none
      if rowsAffected = 0 then
        (some (NewCustomError err http.StatusNotFound).toError, st)
      else (none, st)

end news

/-! ## Package `store`: the in-memory store

The store keeps a slice of pointers, `[]*News`. A pointer is the address of an
object; the objects live in a heap, which `Create` writes to (`news.ID = uuid.New()`)
and the other methods read. The mutex only serialises the methods, which are
modelled one call at a time. -/

namespace store

/-- Modelled from the spec: the struct `store.News`, whose declaration is not among
the sources. `store.go` reads and writes its field `ID` of type `uuid.UUID`; the
other fields of the news entity (author, title, summary, content, source URL, tags,
timestamps) are the value `fields` of a type `α` that is left open. -/
structure News (α : Type) where
  ID : UUID
  fields : α
deriving DecidableEq, Repr

/-- A non-nil `*News`: the address of a `News` object. -/
structure Ptr where
  addr : Nat
deriving DecidableEq, Repr

/-- The heap: the `News` object at each address. -/
abbrev Heap (α : Type) := Ptr → News α

/-- The assignment `p.ID = id` to the object at address `p`. -/
def Heap.setID {α : Type} (h : Heap α) (p : Ptr) (id : UUID) : Heap α :=
  fun q => if q = p then { h p with ID := id } else h q

/-- The struct `store.Store`: the slice `n` of pointers (the mutex `l` holds no
data). -/
structure Store where
  n : List Ptr
deriving DecidableEq, Repr

/-- The function `New`. -/
def New : Store := { n := [] }

/-- The method `Store.Create`; `newID` is what `uuid.New()` returns in this call.
Assigning `news.ID` dereferences `news`. -/
def Store.Create {α : Type} (s : Store) (newID : UUID) (news : Option Ptr) (h : Heap α) :
    Except Panic ((Option Ptr × Option GoError) × Heap α × Store) :=
  match news with
  | none => .error Panic.nilDereference
  | some news =>
    let h := h.setID news newID
    let s : Store := { n := s.n ++ [news] }
    .ok ((some news, none), h, s)

/-- The method `Store.FindAll`. -/
def Store.FindAll (s : Store) : (List Ptr × Option GoError) × Store :=
  ((s.n, none), s)

/-- The loop `for _, n := range s.n` of `FindByID`: the first pointer whose object
has the given `ID`, or `none` when the loop runs to its end. -/
def findFirst {α : Type} (h : Heap α) (id : UUID) : List Ptr → Option Ptr
  | [] => none
  | n :: rest => if (h n).ID = id then some n else findFirst h id rest

/-- The method `Store.FindByID`. -/
def Store.FindByID {α : Type} (s : Store) (id : UUID) (h : Heap α) :
    (Option Ptr × Option GoError) × Store :=
  match findFirst h id s.n with
  | some n => ((some n, none), s)
  | none => ((none, some (GoError.errorString "news not found")), s)

/-- The loop `for i, n := range s.n` of `DeleteByID` and `UpdateByID`: the first
index whose object has the given `ID`; `none` stands for running to the end of the
loop (the index -1 of `DeleteByID`). -/
def indexOfID {α : Type} (h : Heap α) (id : UUID) : List Ptr → Option Nat
  | [] => none
  | n :: rest =>
    if (h n).ID = id then some 0
    else
      match indexOfID h id rest with
      | some i => some (i + 1)
      | none => none

/-- The method `Store.DeleteByID`; the new slice is
`append(s.n[:idx], s.n[idx+1:]...)`. -/
def Store.DeleteByID {α : Type} (s : Store) (id : UUID) (h : Heap α) :
    Option GoError × Store :=
  match indexOfID h id s.n with
  | none => (some (GoError.errorString "news not found"), s)
  | some idx => (none, { n := s.n.take idx ++ s.n.drop (idx + 1) })

/-- The method `Store.UpdateByID`. The comparison `n.ID == news.ID` in the loop
dereferences `news`; an empty slice is never compared. -/
def Store.UpdateByID {α : Type} (s : Store) (news : Option Ptr) (h : Heap α) :
    Except Panic (Option GoError × Store) :=
  match s.n, news with
  | [], _ => .ok (some (GoError.errorString "not found"), s)
  | _ :: _, none => .error Panic.nilDereference
  | _ :: _, some news =>
    match indexOfID h (h news).ID s.n with
    | some idx => .ok (none, { n := s.n.set idx news })
    | none => .ok (some (GoError.errorString "not found"), s)

/-- Some stored item has the identifier `id`. -/
def Store.Holds {α : Type} (s : Store) (h : Heap α) (id : UUID) : Prop :=
  ∃ p ∈ s.n, (h p).ID = id

/-- The pointer `p` is the first stored item with the identifier `id`: the slice is
`pre`, then `p`, then `post`, and no item of `pre` has that identifier. -/
def Store.FirstAt {α : Type} (s : Store) (h : Heap α) (id : UUID) (pre : List Ptr) (p : Ptr)
    (post : List Ptr) : Prop :=
  s.n = pre ++ p :: post ∧ (∀ q ∈ pre, (h q).ID ≠ id) ∧ (h p).ID = id

end store

/-! ## Package `logger`: the logger in the context -/

namespace logger

/-- A non-nil `*slog.Logger`: the address of a logger. -/
structure LoggerPtr where
  addr : Nat
deriving DecidableEq, Repr

/-- A context key: the value `logger.CtxKey{}` or any other key. -/
inductive Key where
  | CtxKey
  | other (k : Nat)
deriving DecidableEq, Repr

/-- A non-nil value stored in a context, by its dynamic type: a `*slog.Logger`
(which may be the nil pointer) or a value of another type. -/
inductive Val where
  | logger (l : Option LoggerPtr)
  | other (v : Nat)
deriving DecidableEq, Repr

/-- A `context.Context`, as far as `Value` tells contexts apart: a context `base`
that answers `Value` by `lookup` (the background context answers nil to every
key), or `context.WithValue(parent, key, val)`, where `val` may be nil. -/
inductive Context where
  | base (lookup : Key → Option Val)
  | WithValue (parent : Context) (key : Key) (val : Option Val)

/-- The function `context.Background`. -/
def Background : Context := Context.base (fun _ => none)

/-- The method `Value` of a context; `none` is the nil interface. -/
def Context.Value : Context → Key → Option Val
  | .base lookup, key => lookup key
  | .WithValue parent k val, key => if k = key then val else parent.Value key

/-- The type assertion `ctx.Value(CtxKey{}).(*slog.Logger)`: `some l` when it is ok
(`l` being the pointer, possibly nil), `none` when it is not. -/
def loggerOf (ctx : Context) : Option (Option LoggerPtr) :=
  match ctx.Value Key.CtxKey with
  | some (Val.logger l) => some l
  | _ => none

/-- The function `CtxWithLogger`. -/
def CtxWithLogger (ctx : Context) (logger : Option LoggerPtr) : Context :=
  match logger with
  | none => ctx
  | some l =>
    match loggerOf ctx with
    | some ctxLog =>
      if ctxLog = some l then ctx
      else Context.WithValue ctx Key.CtxKey (some (Val.logger (some l)))
    | none => Context.WithValue ctx Key.CtxKey (some (Val.logger (some l)))

/-- The function `FromContext`; `newLogger` is the logger that `slog.New` makes in
this call. -/
def FromContext (newLogger : LoggerPtr) (ctx : Context) : Option LoggerPtr :=
  match loggerOf ctx with
  | some logger => logger
  | none => some newLogger

/-- The context holds a logger: the type assertion of the tests,
`ctx.Value(logger.CtxKey{}).(*slog.Logger)`, is ok. -/
def HoldsLogger (ctx : Context) : Prop := (loggerOf ctx).isSome = true

end logger

/-! ## Sequences of calls on the in-memory store -/

namespace store

/-- One call on the in-memory store, with its arguments: the items are non-nil
pointers, and `newID` is what `uuid.New()` returns in a call of `Create`. -/
inductive Call where
  | Create (newID : UUID) (news : Ptr)
  | FindAll
  | FindByID (id : UUID)
  | DeleteByID (id : UUID)
  | UpdateByID (news : Ptr)
deriving DecidableEq, Repr

/-- The heap and the store after one call; what the call returns is dropped. -/
def Call.run {α : Type} (c : Call) (h : Heap α) (s : Store) : Except Panic (Heap α × Store) :=
  match c with
  | .Create newID news =>
    match s.Create newID (some news) h with
    | .ok (_, h, s) => .ok (h, s)
    | .error p => .error p
  | .FindAll => .ok (h, s.FindAll.2)
  | .FindByID id => .ok (h, (s.FindByID id h).2)
  | .DeleteByID id => .ok (h, (s.DeleteByID id h).2)
  | .UpdateByID news =>
    match s.UpdateByID (some news) h with
    | .ok (_, s) => .ok (h, s)
    | .error p => .error p

/-- The heap and the store after a sequence of calls, made one after the other. -/
def runCalls {α : Type} : List Call → Heap α → Store → Except Panic (Heap α × Store)
  | [], h, s => .ok (h, s)
  | c :: cs, h, s =>
    match c.run h s with
    | .ok (h, s) => runCalls cs h s
    | .error p => .error p

/-- The sequence of `Create` calls for the given items, each with the identifier
generated for it. -/
def creates (l : List (UUID × Ptr)) : List Call :=
  l.map (fun x => Call.Create x.1 x.2)

/-- The condition on one call that its generated identifier is fresh: a `Create`
generates an identifier that no stored item has when it is called. -/
def Call.FreshID {α : Type} (c : Call) (h : Heap α) (s : Store) : Prop :=
  match c with
  | .Create newID _ => ¬ s.Holds h newID
  | _ => True

/-- The condition on one call that its item is new: a `Create` is given an item
that is not in the store when it is called. -/
def Call.NewItem (c : Call) (s : Store) : Prop :=
  match c with
  | .Create _ news => news ∉ s.n
  | _ => True

/-- Every `Create` of the sequence generates an identifier that differs from the
identifiers stored when it is called. -/
def FreshIDs {α : Type} : List Call → Heap α → Store → Prop
  | [], _, _ => True
  | c :: cs, h, s =>
    c.FreshID h s ∧
    match c.run h s with
    | .ok (h, s) => FreshIDs cs h s
    | .error _ => True

/-- Every `Create` of the sequence is given an item that is not in the store when
it is called. -/
def NewItems {α : Type} : List Call → Heap α → Store → Prop
  | [], _, _ => True
  | c :: cs, h, s =>
    c.NewItem s ∧
    match c.run h s with
    | .ok (h, s) => NewItems cs h s
    | .error _ => True

/-- No two entries of the store have the same `ID`. -/
def Store.UniqueIDs {α : Type} (s : Store) (h : Heap α) : Prop :=
  (s.n.map (fun p => (h p).ID)).Nodup

end store

/-! ## Notions the statements below are written in -/

/-- The test `strings.Contains(s, sub)`: `sub` occurs in `s` as a contiguous run. -/
def Contains (s sub : String) : Prop := sub.data <:+: s.data

namespace handler

/-- The record that `Validate` builds from a request whose `CreatedAt` parsed to
`t` and whose `Source` parsed to `u`. -/
def acceptedRecord (lib : Lib) (n : NewsPostReqBody) (t : Time) (u : lib.URL) : news.Record :=
  { ID := n.ID
    Author := n.Author
    Title := n.Title
    Content := n.Content
    Summary := n.Summary
    CreatedAt := t
    Source := lib.urlString u
    Tags := n.Tags
    UpdatedAt := Time.zero
    DeletedAt := Time.zero }

/-- The conditions under which a request is acceptable: the five strings are
non-empty, `CreatedAt` parses as RFC 3339, `Source` parses as a URL, and `Tags` has
at least one element. -/
def Acceptable (lib : Lib) (n : NewsPostReqBody) : Prop :=
  n.Author ≠ "" ∧ n.Title ≠ "" ∧ n.Content ≠ "" ∧ n.Summary ≠ "" ∧ n.Source ≠ "" ∧
  (∃ t, lib.timeParse n.CreatedAt = .ok t) ∧ (∃ u, lib.urlParse n.Source = .ok u) ∧
  1 ≤ n.Tags.len

/-- The message of a parse rule: the text of the parse error when the parse
failed, nothing when it succeeded. -/
def failureText {α : Type} (r : Except String α) : List String :=
  match r with
  | .error msg => [msg]
  | .ok _ => []

/-- The messages of the rules a request violates, in the check order author, title,
content, summary, created_at parse, source empty, source URL parse, tags. -/
def violations (lib : Lib) (n : NewsPostReqBody) : List String :=
  (if n.Author = "" then ["author is empty: "] else []) ++
  (if n.Title = "" then ["title is empty: "] else []) ++
  (if n.Content = "" then ["content is empty: "] else []) ++
  (if n.Summary = "" then ["summary is empty: "] else []) ++
  failureText (lib.timeParse n.CreatedAt) ++
  (if n.Source = "" then ["source is empty: "] else []) ++
  failureText (lib.urlParse n.Source) ++
  (if n.Tags.len = 0 then ["tags cannot be empty"] else [])

/-- The all-zero request body `handler.NewsPostReqBody{}`. -/
def zeroReqBody : NewsPostReqBody :=
  { ID := UUID.Nil, Author := "", Title := "", Summary := "", CreatedAt := "", Content := "",
    Source := "", Tags := none }

/-- One step `if c { errs = errors.Join(errs, e) }` of `Validate`. -/
def joinWhen (c : Prop) [Decidable c] (errs : Option GoError) (e : GoError) : Option GoError :=
  if c then errorsJoin [errs, some e] else errs

/-- One step `if err != nil { errs = errors.Join(errs, err) }` of `Validate`, for the
result `r` of a parse. -/
def joinFailure {α : Type} (r : Except String α) (errs : Option GoError) : Option GoError :=
  match r with
  | .ok _ => errs
  | .error msg => errorsJoin [errs, some (GoError.libError msg)]

/-- The value of `errs` when `Validate` reaches `if errs != nil`. -/
def collected (lib : Lib) (n : NewsPostReqBody) : Option GoError :=
  joinWhen (n.Tags.len = 0)
    (joinFailure (lib.urlParse n.Source)
      (joinWhen (n.Source = "")
        (joinFailure (lib.timeParse n.CreatedAt)
          (joinWhen (n.Summary = "")
            (joinWhen (n.Content = "")
              (joinWhen (n.Title = "")
                (joinWhen (n.Author = "") none (fmtErrorf "author is empty: " n.Author))
                (fmtErrorf "title is empty: " n.Title))
              (fmtErrorf "content is empty: " n.Content))
            (fmtErrorf "summary is empty: " n.Summary)))
        (fmtErrorf "source is empty: " n.Source)))
    (GoError.errorString "tags cannot be empty")

/-- The error `errs` is nil when `msgs` is empty, and otherwise an error whose text
is the messages `msgs` joined by newlines. -/
def TextIs (errs : Option GoError) (msgs : List String) : Prop :=
  match errs with
  | none => msgs = []
  | some e => msgs ≠ [] ∧ e.Error = .ok (String.intercalate "\n" msgs)

end handler

/-- The relation "`err` is, or wraps, the `*news.CustomError` `ce`": `ce` is `err`
itself or is reached from it through `Unwrap`. -/
inductive IsOrWraps : GoError → news.CustomError → Prop where
  | is (ce : news.CustomError) : IsOrWraps ce.toError ce
  | wrapError (msg : String) (e : GoError) (ce : news.CustomError) :
      IsOrWraps e ce → IsOrWraps (GoError.wrapError msg e) ce
  | joinError (errs : List GoError) (e : GoError) (ce : news.CustomError) :
      e ∈ errs → IsOrWraps e ce → IsOrWraps (GoError.joinError errs) ce
  | customError (e : GoError) (httpStatus : Int) (ce : news.CustomError) :
      IsOrWraps e ce → IsOrWraps (GoError.customError (some e) httpStatus) ce

/-- A status code that `WriteHeader` accepts: 100 to 999. -/
def http.ValidCode (code : Int) : Prop := 100 ≤ code ∧ code ≤ 999

instance http.decidableValidCode (code : Int) : Decidable (http.ValidCode code) :=
  inferInstanceAs (Decidable (100 ≤ code ∧ code ≤ 999))

/-- The writer after a call of `WriteHeader` that returns: the status is set unless
a header was written before. -/
def handler.ResponseWriter.withStatus (w : handler.ResponseWriter) (statusCode : Int) :
    handler.ResponseWriter :=
  if w.wroteHeader then w else { w with Code := statusCode, wroteHeader := true }

/-- What a handler does with a store error `err`, `res` being what the handler
returns. When `err` is a `*news.CustomError` with a valid status code, the response
has that status. When `err` is or wraps a `*news.CustomError`, `errors.As` finds
one of them: with a valid status code of it the response has that status, and with
any other code `WriteHeader` panics. For every other error the status is 500. -/
def StoreErrorStatus {σ : Type} (err : GoError)
    (res : Except (handler.Failure σ) (handler.Outcome σ)) : Prop :=
  (∀ ce : news.CustomError, err = ce.toError → http.ValidCode ce.HTTPStatusCode →
    ∃ out, res = .ok out ∧ out.w.Code = ce.HTTPStatusCode) ∧
  ((∃ ce, IsOrWraps err ce) →
    ∃ ce, IsOrWraps err ce ∧ errorsAsCustomError err = some ce ∧
      (http.ValidCode ce.HTTPStatusCode →
        ∃ out, res = .ok out ∧ out.w.Code = ce.HTTPStatusCode) ∧
      (¬ http.ValidCode ce.HTTPStatusCode →
        ∃ f, res = .error f ∧ f.panic = Panic.invalidWriteHeaderCode ce.HTTPStatusCode)) ∧
  ((∀ ce, ¬ IsOrWraps err ce) →
    ∃ out, res = .ok out ∧ out.w.Code = http.StatusInternalServerError)

/-- The error part `e` of a store answer is one on which the handlers do not panic:
when `e` is an error in which `errors.As` finds a `*news.CustomError`, the status
code of that one is a code `WriteHeader` accepts. -/
def StatusAccepted (e : Option GoError) : Prop :=
  ∀ err ce, e = some err → errorsAsCustomError err = some ce →
    http.ValidCode ce.HTTPStatusCode

/-! ## Sample library behaviour, stores and requests

`testLib` answers as the Go libraries do at the inputs that the repository's tests
(`model_test.go`, `handler_test.go`) and the examples below use; any other input is
answered with an error saying that it is not tabulated. It is used only to
evaluate the handlers at those inputs. -/

namespace sample

/-- The instant 2024-04-07T05:13:27Z. -/
def createdAt : Time := ⟨63848063607000000000⟩

/-- The instant 10000-01-01T00:00:00Z, the first one whose year `time.Time.MarshalJSON`
rejects. -/
def year10000 : Time := ⟨315537897600000000000⟩

/-- Whether the year of the instant lies outside 0..9999 (read in UTC). -/
def yearOutOfRange (t : Time) : Bool :=
  decide (t.nanos < -31622400000000000000) || decide (315537897600000000000 ≤ t.nanos)

/-- Whether marshalling the record runs into a time whose year is out of range. -/
def recordOutOfRange (r : news.Record) : Bool :=
  yearOutOfRange r.CreatedAt || yearOutOfRange r.UpdatedAt || yearOutOfRange r.DeletedAt

/-- The UUID 3b082d9d-1dc7-4d1f-907e-50d449a03d45 of the handler tests. -/
def testID : UUID := ⟨0x3b082d9d1dc74d1f907e50d449a03d45⟩

/-- The body of the "success" cases of `handler_test.go`, decoded. -/
def goodReqBody : handler.NewsPostReqBody :=
  { ID := testID, Author := "code learn", Title := "first news", Summary := "first news post",
    CreatedAt := "2024-04-07T05:13:27+00:00", Content := "news content",
    Source := "https://example.com", Tags := some ["politics"] }

/-- The body of the "invalid request body" cases of `handler_test.go`, decoded: no
content and no tags. -/
def badReqBody : handler.NewsPostReqBody :=
  { ID := testID, Author := "code learn", Title := "first news", Summary := "first news post",
    CreatedAt := "2024-04-07T05:13:27+00:00", Content := "",
    Source := "https://example.com", Tags := none }

/-- The JSON text of the "success" cases of `handler_test.go`, without the white
space between the tokens. -/
def goodBodyText : String :=
  "\x7b\"id\":\"3b082d9d-1dc7-4d1f-907e-50d449a03d45\",\"author\":\"code learn\"," ++
  "\"content\":\"news content\",\"title\":\"first news\",\"summary\":\"first news post\"," ++
  "\"created_at\":\"2024-04-07T05:13:27+00:00\",\"source\":\"https://example.com\"," ++
  "\"tags\":[\"politics\"]\x7d"

/-- The JSON text of the "invalid request body" cases of `handler_test.go`, without
the white space between the tokens. -/
def badBodyText : String :=
  "\x7b\"id\":\"3b082d9d-1dc7-4d1f-907e-50d449a03d45\",\"author\":\"code learn\"," ++
  "\"title\":\"first news\",\"summary\":\"first news post\"," ++
  "\"created_at\":\"2024-04-07T05:13:27+00:00\",\"source\":\"https://example.com\"\x7d"

/-- The text of the error `time.Time.MarshalJSON` gives for a year out of range, as
`encoding/json` reports it. -/
def yearErrorText : String :=
  "json: error calling MarshalJSON for type time.Time: " ++
    "Time.MarshalJSON: year outside of range [0,9999]"

/-- The sample library behaviour. -/
def testLib : handler.Lib where
  URL := String
  timeParse := fun s =>
    if s = "2024-04-07T05:13:27+00:00" then .ok createdAt
    else if s = "" then
      .error "parsing time \"\" as \"2006-01-02T15:04:05Z07:00\": cannot parse \"\" as \"2006\""
    else if s = "invalid" then
      .error ("parsing time \"invalid\" as \"2006-01-02T15:04:05Z07:00\": " ++
        "cannot parse \"invalid\" as \"2006\"")
    else .error "not tabulated"
  urlParse := fun s =>
    if s = "" ∨ s = "https://example.com" ∨ s = "https://test-news.com" then .ok s
    else if s = "https://xyz:abc" then
      .error "parse \"https://xyz:abc\": invalid port \":abc\" after host"
    else .error "not tabulated"
  urlString := fun u => u
  uuidParse := fun s =>
    if s = "3b082d9d-1dc7-4d1f-907e-50d449a03d45" then .ok testID
    else if s = "invalid-uuid" then .error "invalid UUID length: 12"
    else .error "not tabulated"
  jsonDecode := fun s =>
    if s = goodBodyText then .ok goodReqBody
    else if s = badBodyText then .ok badReqBody
    else if s = "\x7b" then .error "unexpected EOF"
    else .error "not tabulated"
  jsonMarshalAll := fun rs =>
    match rs with
    | none => .ok "\x7b\"news\":null\x7d"
    | some l =>
      if l.any (fun r => match r with
        | some r => recordOutOfRange r
        | none => false) then .error yearErrorText
      else .error "not tabulated"
  jsonMarshalOne := fun r =>
    match r with
    | none => .ok "null"
    | some r => if recordOutOfRange r then .error yearErrorText else .error "not tabulated"

/-- A store in the manner of the mocks of `handler_test.go`: every method returns
nil results together with the error `err`, and there is no state. -/
def mockStorer (err : Option GoError) : handler.NewsStorer Unit where
  Create := fun _ s => ((none, err), s)
  FindByID := fun _ s => ((none, err), s)
  FindAll := fun s => ((none, err), s)
  DeleteByID := fun _ s => (err, s)
  UpdateByID := fun _ _ s => (err, s)

/-- The error `news.NewCustomError(errors.New("some error"), 0)`, as a store may
return it. -/
def zeroStatusError : GoError :=
  (news.NewCustomError (some (GoError.errorString "some error")) 0).toError

/-- A record created in the year 10000. -/
def farFutureRecord : news.Record :=
  { ID := testID, Author := "a", Title := "t", Summary := "s", Content := "c",
    Source := "https://example.com", Tags := some ["politics"], CreatedAt := year10000,
    UpdatedAt := year10000, DeletedAt := Time.zero }

/-- A store that holds `farFutureRecord` and whose calls all succeed. -/
def farFutureStorer : handler.NewsStorer Unit where
  Create := fun n s => ((n, none), s)
  FindByID := fun _ s => ((some farFutureRecord, none), s)
  FindAll := fun s => ((some [some farFutureRecord], none), s)
  DeleteByID := fun _ s => (none, s)
  UpdateByID := fun _ _ s => (none, s)

/-- A database whose update statement runs without error and affects `rows` rows;
the other queries succeed with nothing to report. -/
def updateRowsDB (rows : Int) : news.IDB Unit where
  insert := fun r s => (.ok r, s)
  selectByID := fun _ s => (.error GoError.errNoRows, s)
  selectAll := fun s => (.ok none, s)
  delete := fun _ s => (none, s)
  update := fun _ _ s => (.ok { RowsAffected := .ok rows }, s)

/-- A heap in which the object at each address has that address as its `ID` and no
other data. -/
def addrHeap : store.Heap Unit := fun p => { ID := ⟨p.addr⟩, fields := () }

/-- An in-memory store that holds the objects at the addresses 1 and 2. -/
def twoItems : store.Store := { n := [⟨1⟩, ⟨2⟩] }

end sample

/-! ## Lemmas on strings and on joined errors -/

theorem intercalate_go_append (s : String) (l : List String) (x y : String) :
    String.intercalate.go (x ++ y) s l = x ++ String.intercalate.go y s l := by
  induction l generalizing y with
  | nil => rfl
  | cons c l ih =>
    simp only [String.intercalate.go]
    rw [String.append_assoc, String.append_assoc, ← String.append_assoc y, ih]

theorem intercalate_singleton (s a : String) : String.intercalate s [a] = a := rfl

theorem intercalate_cons_cons (s a b : String) (l : List String) :
    String.intercalate s (a :: b :: l) = a ++ s ++ String.intercalate s (b :: l) := by
  simp only [String.intercalate, String.intercalate.go]
  rw [intercalate_go_append]

theorem intercalate_snoc (s m : String) (l : List String) (h : l ≠ []) :
    String.intercalate s (l ++ [m]) = String.intercalate s l ++ s ++ m := by
  induction l with
  | nil => exact absurd rfl h
  | cons a l ih =>
    cases l with
    | nil => simp [intercalate_cons_cons, intercalate_singleton]
    | cons b l =>
      have hb := ih (List.cons_ne_nil b l)
      simp only [List.cons_append] at hb ⊢
      rw [intercalate_cons_cons, hb, intercalate_cons_cons]
      simp only [String.append_assoc]

theorem contains_of_eq {s sub : String} (pre post : String) (h : s = pre ++ sub ++ post) :
    Contains s sub := by
  refine ⟨pre.data, post.data, ?_⟩
  rw [h]
  simp [String.data_append]

theorem Contains.trans {s m sub : String} (h₁ : Contains s m) (h₂ : Contains m sub) :
    Contains s sub :=
  List.IsInfix.trans h₂ h₁

theorem contains_intercalate (s m : String) (l : List String) (hm : m ∈ l) :
    Contains (String.intercalate s l) m := by
  induction l with
  | nil => cases hm
  | cons a l ih =>
    cases l with
    | nil =>
      have : m = a := by simpa using hm
      subst this
      exact contains_of_eq "" "" (by simp [intercalate_singleton])
    | cons b l =>
      rw [intercalate_cons_cons]
      rcases List.mem_cons.mp hm with h | h
      · subst h
        exact contains_of_eq "" (s ++ String.intercalate s (b :: l))
          (by simp [String.append_assoc])
      · obtain ⟨p, q, hpq⟩ := ih h
        refine ⟨(a ++ s).data ++ p, q, ?_⟩
        simp only [String.data_append] at hpq ⊢
        simp only [← hpq, List.append_assoc]

namespace handler

theorem textIs_join {errs : Option GoError} {msgs : List String} {e : GoError} {m : String}
    (h : TextIs errs msgs) (he : e.Error = .ok m) :
    TextIs (errorsJoin [errs, some e]) (msgs ++ [m]) := by
  cases errs with
  | none =>
    have hmsgs : msgs = [] := h
    subst hmsgs
    refine ⟨by simp, ?_⟩
    simp [GoError.Error, GoError.ErrorJoined, he, intercalate_singleton]
  | some e₀ =>
    obtain ⟨hne, h₀⟩ := h
    refine ⟨by simp, ?_⟩
    simp [GoError.Error, GoError.ErrorJoined, he, h₀, intercalate_snoc _ _ _ hne]

theorem textIs_joinWhen {errs : Option GoError} {msgs : List String} (c : Prop) [Decidable c]
    {e : GoError} {m : String} (h : TextIs errs msgs) (he : e.Error = .ok m) :
    TextIs (joinWhen c errs e) (msgs ++ if c then [m] else []) := by
  unfold joinWhen
  split_ifs
  · exact textIs_join h he
  · simpa using h

theorem textIs_joinFailure {α : Type} {errs : Option GoError} {msgs : List String}
    (r : Except String α) (h : TextIs errs msgs) :
    TextIs (joinFailure r errs) (msgs ++ failureText r) := by
  cases r with
  | error msg => exact textIs_join h rfl
  | ok a => simpa [joinFailure, failureText] using h

theorem ite_singleton_congr {α : Type} (c : Prop) [Decidable c] (a b : α) (h : c → a = b) :
    (if c then [a] else []) = (if c then [b] else []) := by
  split_ifs with hc
  · rw [h hc]
  · rfl

end handler

namespace handler

theorem Validate_unfold (lib : Lib) (n : NewsPostReqBody) :
    n.Validate lib =
      match collected lib n with
      | some e => .ok (none, some e)
      | none =>
        match lib.urlParse n.Source with
        | .error _ => .error Panic.nilDereference
        | .ok u =>
          .ok (some (acceptedRecord lib n
            (match lib.timeParse n.CreatedAt with
              | .ok t => t
              | .error _ => Time.zero) u), none) := by
  unfold NewsPostReqBody.Validate collected
  generalize lib.urlParse n.Source = up
  generalize lib.timeParse n.CreatedAt = tp
  cases up <;> cases tp <;> rfl

theorem collected_text (lib : Lib) (n : NewsPostReqBody) :
    TextIs (collected lib n) (violations lib n) := by
  have h0 : TextIs none [] := rfl
  have h1 := textIs_joinWhen (n.Author = "") h0
    (rfl : (fmtErrorf "author is empty: " n.Author).Error = _)
  have h2 := textIs_joinWhen (n.Title = "") h1
    (rfl : (fmtErrorf "title is empty: " n.Title).Error = _)
  have h3 := textIs_joinWhen (n.Content = "") h2
    (rfl : (fmtErrorf "content is empty: " n.Content).Error = _)
  have h4 := textIs_joinWhen (n.Summary = "") h3
    (rfl : (fmtErrorf "summary is empty: " n.Summary).Error = _)
  have h5 := textIs_joinFailure (lib.timeParse n.CreatedAt) h4
  have h6 := textIs_joinWhen (n.Source = "") h5
    (rfl : (fmtErrorf "source is empty: " n.Source).Error = _)
  have h7 := textIs_joinFailure (lib.urlParse n.Source) h6
  have h8 := textIs_joinWhen (n.Tags.len = 0) h7
    (rfl : (GoError.errorString "tags cannot be empty").Error = _)
  have e1 := ite_singleton_congr (n.Author = "") ("author is empty: " ++ n.Author)
    "author is empty: " (fun h => by rw [h]; rfl)
  have e2 := ite_singleton_congr (n.Title = "") ("title is empty: " ++ n.Title)
    "title is empty: " (fun h => by rw [h]; rfl)
  have e3 := ite_singleton_congr (n.Content = "") ("content is empty: " ++ n.Content)
    "content is empty: " (fun h => by rw [h]; rfl)
  have e4 := ite_singleton_congr (n.Summary = "") ("summary is empty: " ++ n.Summary)
    "summary is empty: " (fun h => by rw [h]; rfl)
  have e6 := ite_singleton_congr (n.Source = "") ("source is empty: " ++ n.Source)
    "source is empty: " (fun h => by rw [h]; rfl)
  rw [e1, e2, e3, e4, e6] at h8
  simpa [collected, violations] using h8

theorem ite_singleton_eq_nil {α : Type} (c : Prop) [Decidable c] (a : α) :
    (if c then [a] else []) = [] ↔ ¬ c := by
  split_ifs with h <;> simp [h]

theorem failureText_eq_nil {α : Type} (r : Except String α) :
    failureText r = [] ↔ ∃ a, r = .ok a := by
  cases r <;> simp [failureText]

theorem violations_eq_nil_iff (lib : Lib) (n : NewsPostReqBody) :
    violations lib n = [] ↔ Acceptable lib n := by
  unfold violations Acceptable
  simp only [List.append_eq_nil, ite_singleton_eq_nil, failureText_eq_nil]
  constructor
  · rintro ⟨⟨⟨⟨⟨⟨⟨h1, h2⟩, h3⟩, h4⟩, h5⟩, h6⟩, h7⟩, h8⟩
    exact ⟨h1, h2, h3, h4, h6, h5, h7, by omega⟩
  · rintro ⟨h1, h2, h3, h4, h6, h5, h7, h8⟩
    exact ⟨⟨⟨⟨⟨⟨⟨h1, h2⟩, h3⟩, h4⟩, h5⟩, h6⟩, h7⟩, by omega⟩

end handler

namespace handler

theorem validate_cases (lib : Lib) (n : NewsPostReqBody) :
    (Acceptable lib n ∧ ∃ t u, lib.timeParse n.CreatedAt = .ok t ∧ lib.urlParse n.Source = .ok u ∧
        n.Validate lib = .ok (some (acceptedRecord lib n t u), none)) ∨
    (¬ Acceptable lib n ∧ violations lib n ≠ [] ∧ ∃ e, n.Validate lib = .ok (none, some e) ∧
        e.Error = .ok (String.intercalate "\n" (violations lib n))) := by
  have ht := collected_text lib n
  have hv := Validate_unfold lib n
  cases hc : collected lib n with
  | none =>
    rw [hc] at ht hv
    have hnil : violations lib n = [] := ht
    have hacc := (violations_eq_nil_iff lib n).mp hnil
    obtain ⟨_, _, _, _, _, ⟨t, htp⟩, ⟨u, hup⟩, _⟩ := hacc
    refine Or.inl ⟨(violations_eq_nil_iff lib n).mp hnil, t, u, htp, hup, ?_⟩
    rw [hv, hup, htp]
  | some e =>
    rw [hc] at ht hv
    obtain ⟨hne, hte⟩ := ht
    exact Or.inr ⟨fun h => hne ((violations_eq_nil_iff lib n).mpr h), hne, e, hv, hte⟩

theorem validate_contains (lib : Lib) (n : NewsPostReqBody) (m sub : String)
    (hm : m ∈ violations lib n) (hsub : Contains m sub) :
    ∃ e text, n.Validate lib = .ok (none, some e) ∧ e.Error = .ok text ∧ Contains text sub := by
  rcases validate_cases lib n with ⟨hacc, _⟩ | ⟨_, _, e, hv, hte⟩
  · rw [(violations_eq_nil_iff lib n).mpr hacc] at hm
    cases hm
  · exact ⟨e, _, hv, hte, (contains_intercalate "\n" m _ hm).trans hsub⟩

theorem contains_self (s : String) : Contains s s := List.infix_refl _

/-- C1: `Validate` returns a record and no error exactly when the request is
acceptable (the five strings non-empty, `CreatedAt` parses as RFC 3339, `Source`
parses as a URL, `Tags` has at least one element); for every other request it
returns an error and a nil record. -/
theorem Validate_accepts_iff (lib : Lib) (n : NewsPostReqBody) :
    (Acceptable lib n ↔ ∃ rec, n.Validate lib = .ok (some rec, none)) ∧
    (¬ Acceptable lib n → ∃ e, n.Validate lib = .ok (none, some e)) := by
  rcases validate_cases lib n with ⟨hacc, t, u, _, _, hv⟩ | ⟨hnacc, _, e, hv, _⟩
  · exact ⟨⟨fun _ => ⟨_, hv⟩, fun _ => hacc⟩, fun h => absurd hacc h⟩
  · refine ⟨⟨fun h => absurd h hnacc, ?_⟩, fun _ => ⟨e, hv⟩⟩
    rintro ⟨rec, hrec⟩
    rw [hv] at hrec
    cases hrec

/-- C2: whenever `Validate` returns an error, its text is the messages of all the
violated rules, in check order, joined by newlines; an error is returned as soon as
one rule is violated; and for the all-zero request body (whose empty `CreatedAt`
fails to parse with text `te` and whose empty `Source` parses) the text lists
author, title, content, summary, created_at, source and tags. -/
theorem Validate_error_text (lib : Lib) (n : NewsPostReqBody) :
    (∀ r e, n.Validate lib = .ok (r, some e) →
      e.Error = .ok (String.intercalate "\n" (violations lib n))) ∧
    (violations lib n ≠ [] → ∃ e, n.Validate lib = .ok (none, some e) ∧
      e.Error = .ok (String.intercalate "\n" (violations lib n))) ∧
    (∀ te u, lib.timeParse "" = .error te → lib.urlParse "" = .ok u →
      ∃ e, zeroReqBody.Validate lib = .ok (none, some e) ∧
        e.Error = .ok ("author is empty: \ntitle is empty: \ncontent is empty: \n" ++
          "summary is empty: \n" ++ te ++ "\nsource is empty: \ntags cannot be empty")) := by
  refine ⟨?_, ?_, ?_⟩
  · intro r e h
    rcases validate_cases lib n with ⟨_, t, u, _, _, hv⟩ | ⟨_, _, e₀, hv, hte⟩
    · rw [hv] at h
      cases h
    · rw [hv] at h
      cases h
      exact hte
  · intro hne
    rcases validate_cases lib n with ⟨hacc, _⟩ | ⟨_, _, e₀, hv, hte⟩
    · exact absurd ((violations_eq_nil_iff lib n).mpr hacc) hne
    · exact ⟨e₀, hv, hte⟩
  · intro te u hte hu
    rcases validate_cases lib zeroReqBody with ⟨hacc, _⟩ | ⟨_, _, e₀, hv, htext⟩
    · exact absurd rfl hacc.1
    · refine ⟨e₀, hv, ?_⟩
      rw [htext]
      have hvi : violations lib zeroReqBody =
          ["author is empty: ", "title is empty: ", "content is empty: ",
            "summary is empty: ", te, "source is empty: ", "tags cannot be empty"] := by
        simp [violations, zeroReqBody, hte, hu, failureText, Slice.len]
      rw [hvi]
      simp only [intercalate_cons_cons, intercalate_singleton,
        String.append_assoc]
      rw [← String.append_assoc, ← String.append_assoc, ← String.append_assoc,
        ← String.append_assoc, ← String.append_assoc, ← String.append_assoc,
        ← String.append_assoc]
      rfl

end handler

namespace handler

/-- C3: whatever the other fields hold, each violated rule shows in the text of the
error `Validate` returns: an empty `Author`, `Title`, `Content`, `Summary` or
`Source` gives a text containing "author is empty", "title is empty",
"content is empty", "summary is empty" or "source is empty"; nil or empty `Tags`
give "tags cannot be empty"; a `CreatedAt` that is not RFC 3339 gives the text of
the time-parse error, and an unparseable `Source` the text of the URL-parse error. -/
theorem Validate_reports_each (lib : Lib) (n : NewsPostReqBody) :
    (n.Author = "" → ∃ e text, n.Validate lib = .ok (none, some e) ∧ e.Error = .ok text ∧
      Contains text "author is empty") ∧
    (n.Title = "" → ∃ e text, n.Validate lib = .ok (none, some e) ∧ e.Error = .ok text ∧
      Contains text "title is empty") ∧
    (n.Content = "" → ∃ e text, n.Validate lib = .ok (none, some e) ∧ e.Error = .ok text ∧
      Contains text "content is empty") ∧
    (n.Summary = "" → ∃ e text, n.Validate lib = .ok (none, some e) ∧ e.Error = .ok text ∧
      Contains text "summary is empty") ∧
    (n.Source = "" → ∃ e text, n.Validate lib = .ok (none, some e) ∧ e.Error = .ok text ∧
      Contains text "source is empty") ∧
    (n.Tags = none ∨ n.Tags.len = 0 → ∃ e text, n.Validate lib = .ok (none, some e) ∧
      e.Error = .ok text ∧ Contains text "tags cannot be empty") ∧
    (∀ msg, lib.timeParse n.CreatedAt = .error msg → ∃ e text,
      n.Validate lib = .ok (none, some e) ∧ e.Error = .ok text ∧ Contains text msg) ∧
    (∀ msg, lib.urlParse n.Source = .error msg → ∃ e text,
      n.Validate lib = .ok (none, some e) ∧ e.Error = .ok text ∧ Contains text msg) := by
  refine ⟨?_, ?_, ?_, ?_, ?_, ?_, ?_, ?_⟩
  · intro h
    exact validate_contains lib n "author is empty: " _ (by simp [violations, h])
      (contains_of_eq "" ": " rfl)
  · intro h
    exact validate_contains lib n "title is empty: " _ (by simp [violations, h])
      (contains_of_eq "" ": " rfl)
  · intro h
    exact validate_contains lib n "content is empty: " _ (by simp [violations, h])
      (contains_of_eq "" ": " rfl)
  · intro h
    exact validate_contains lib n "summary is empty: " _ (by simp [violations, h])
      (contains_of_eq "" ": " rfl)
  · intro h
    exact validate_contains lib n "source is empty: " _ (by simp [violations, h])
      (contains_of_eq "" ": " rfl)
  · intro h
    have hlen : n.Tags.len = 0 := by
      rcases h with h | h
      · rw [h]; rfl
      · exact h
    exact validate_contains lib n "tags cannot be empty" _ (by simp [violations, hlen])
      (contains_self _)
  · intro msg h
    exact validate_contains lib n msg _ (by simp [violations, h, failureText])
      (contains_self _)
  · intro msg h
    exact validate_contains lib n msg _ (by simp [violations, h, failureText])
      (contains_self _)

/-- C4: when `Validate` accepts a request (returns no error), the record it
returns has `ID`, `Author`, `Title`, `Content`, `Summary` and `Tags` of the
request, `CreatedAt` the RFC 3339 parse of the request's `CreatedAt`, `Source` the
string form of the parsed `Source` URL, and `UpdatedAt` and `DeletedAt` the zero
time. -/
theorem Validate_record (lib : Lib) (n : NewsPostReqBody) (r : Option news.Record)
    (h : n.Validate lib = .ok (r, none)) :
    ∃ rec t u, r = some rec ∧ lib.timeParse n.CreatedAt = .ok t ∧
      lib.urlParse n.Source = .ok u ∧
      rec.ID = n.ID ∧ rec.Author = n.Author ∧ rec.Title = n.Title ∧
      rec.Content = n.Content ∧ rec.Summary = n.Summary ∧ rec.Tags = n.Tags ∧
      rec.CreatedAt = t ∧ rec.Source = lib.urlString u ∧
      rec.UpdatedAt = Time.zero ∧ rec.DeletedAt = Time.zero := by
  rcases validate_cases lib n with ⟨_, t, u, htp, hup, hv⟩ | ⟨_, _, e, hv, _⟩
  · rw [hv] at h
    cases h
    exact ⟨_, t, u, rfl, htp, hup, rfl, rfl, rfl, rfl, rfl, rfl, rfl, rfl, rfl, rfl⟩
  · rw [hv] at h
    cases h

end handler

/-! ## Evaluations at the sample inputs -/

namespace sample

theorem goodReqBody_acceptable : handler.Acceptable testLib goodReqBody := by
  refine ⟨by decide, by decide, by decide, by decide, by decide, ⟨createdAt, rfl⟩,
    ⟨"https://example.com", rfl⟩, by decide⟩

theorem goodReqBody_validate :
    goodReqBody.Validate testLib =
      .ok (some (handler.acceptedRecord testLib goodReqBody createdAt "https://example.com"),
        none) := by
  rfl

/-- The request of the test case "validate" of `model_test.go` is acceptable, and
`Validate` returns a record for it. -/
theorem Validate_accepts_iff_witness :
    handler.Acceptable testLib goodReqBody ∧
      ∃ rec, goodReqBody.Validate testLib = .ok (some rec, none) :=
  ⟨goodReqBody_acceptable,
    (handler.Validate_accepts_iff testLib goodReqBody).1.mp goodReqBody_acceptable⟩

/-- The all-zero request body of the test case "author empty": the error lists
seven messages, one per line. -/
theorem Validate_error_text_witness :
    ∃ e, handler.zeroReqBody.Validate testLib = .ok (none, some e) ∧
      e.Error = .ok ("author is empty: \ntitle is empty: \ncontent is empty: \n" ++
        "summary is empty: \n" ++
        "parsing time \"\" as \"2006-01-02T15:04:05Z07:00\": cannot parse \"\" as \"2006\"" ++
        "\nsource is empty: \ntags cannot be empty") :=
  (handler.Validate_error_text testLib handler.zeroReqBody).2.2 _ "" rfl rfl

/-- The request body without content and tags of `handler_test.go`: the error text
contains "content is empty". -/
theorem Validate_reports_each_witness :
    badReqBody.Content = "" ∧
      ∃ e text, badReqBody.Validate testLib = .ok (none, some e) ∧ e.Error = .ok text ∧
        Contains text "content is empty" :=
  ⟨rfl, (handler.Validate_reports_each testLib badReqBody).2.2.1 rfl⟩

/-- The record `Validate` returns for the request of the test case "validate". -/
theorem Validate_record_witness :
    goodReqBody.Validate testLib =
        .ok (some (handler.acceptedRecord testLib goodReqBody createdAt "https://example.com"),
          none) ∧
      ∃ rec t u, some (handler.acceptedRecord testLib goodReqBody createdAt
          "https://example.com") = some rec ∧
        testLib.timeParse goodReqBody.CreatedAt = .ok t ∧
        testLib.urlParse goodReqBody.Source = .ok u ∧
        rec.ID = goodReqBody.ID ∧ rec.Author = goodReqBody.Author ∧
        rec.Title = goodReqBody.Title ∧ rec.Content = goodReqBody.Content ∧
        rec.Summary = goodReqBody.Summary ∧ rec.Tags = goodReqBody.Tags ∧
        rec.CreatedAt = t ∧ rec.Source = testLib.urlString u ∧
        rec.UpdatedAt = Time.zero ∧ rec.DeletedAt = Time.zero :=
  ⟨goodReqBody_validate,
    handler.Validate_record testLib goodReqBody _ goodReqBody_validate⟩

end sample

/-! ## Lemmas on `errors.As` -/

mutual
theorem errorsAs_sound : ∀ (err : GoError) (ce : news.CustomError),
    errorsAsCustomError err = some ce → IsOrWraps err ce
  | .errorString _, _, h => by simp [errorsAsCustomError] at h
  | .libError _, _, h => by simp [errorsAsCustomError] at h
  | .errNoRows, _, h => by simp [errorsAsCustomError] at h
  | .wrapError msg e, ce, h => by
    simp only [errorsAsCustomError] at h
    exact IsOrWraps.wrapError msg e ce (errorsAs_sound e ce h)
  | .joinError errs, ce, h => by
    simp only [errorsAsCustomError] at h
    obtain ⟨e, hmem, hw⟩ := errorsAsAny_sound errs ce h
    exact IsOrWraps.joinError errs e ce hmem hw
  | .customError err httpStatus, ce, h => by
    simp only [errorsAsCustomError, Option.some.injEq] at h
    subst h
    exact IsOrWraps.is { err := err, httpStatus := httpStatus }
theorem errorsAsAny_sound : ∀ (errs : List GoError) (ce : news.CustomError),
    errorsAsCustomErrorAny errs = some ce → ∃ e, e ∈ errs ∧ IsOrWraps e ce
  | [], _, h => by simp [errorsAsCustomErrorAny] at h
  | e :: es, ce, h => by
    simp only [errorsAsCustomErrorAny] at h
    cases he : errorsAsCustomError e with
    | some ce₀ =>
      rw [he] at h
      simp only [Option.some.injEq] at h
      subst h
      exact ⟨e, List.mem_cons_self _ _, errorsAs_sound e ce₀ he⟩
    | none =>
      rw [he] at h
      obtain ⟨e₁, hmem, hw⟩ := errorsAsAny_sound es ce h
      exact ⟨e₁, List.mem_cons_of_mem _ hmem, hw⟩
end

mutual
theorem errorsAs_complete : ∀ (err : GoError),
    errorsAsCustomError err = none → ∀ ce, ¬ IsOrWraps err ce
  | .errorString _, _, _, hw => by cases hw
  | .libError _, _, _, hw => by cases hw
  | .errNoRows, _, _, hw => by cases hw
  | .wrapError msg e, h, ce, hw => by
    simp only [errorsAsCustomError] at h
    cases hw with
    | wrapError _ _ _ hw₁ => exact errorsAs_complete e h ce hw₁
  | .joinError errs, h, ce, hw => by
    simp only [errorsAsCustomError] at h
    cases hw with
    | joinError _ e _ hmem hw₁ => exact errorsAsAny_complete errs h e hmem ce hw₁
  | .customError err httpStatus, h, _, _ => by simp [errorsAsCustomError] at h
theorem errorsAsAny_complete : ∀ (errs : List GoError),
    errorsAsCustomErrorAny errs = none → ∀ e, e ∈ errs → ∀ ce, ¬ IsOrWraps e ce
  | [], _, e, hmem, _, _ => by cases hmem
  | e₀ :: es, h, e, hmem, ce, hw => by
    simp only [errorsAsCustomErrorAny] at h
    cases he : errorsAsCustomError e₀ with
    | some ce₀ => rw [he] at h; cases h
    | none =>
      rw [he] at h
      rcases List.mem_cons.mp hmem with heq | hmem₁
      · subst heq
        exact errorsAs_complete e he ce hw
      · exact errorsAsAny_complete es h e hmem₁ ce hw
end

/-! ## The handlers -/

namespace handler

theorem WriteHeader_valid (w : ResponseWriter) (code : Int) (hc : http.ValidCode code) :
    w.WriteHeader code = .ok (w.withStatus code) := by
  have h1 : ¬ (code < 100 ∨ 999 < code) := by
    unfold http.ValidCode at hc
    omega
  unfold ResponseWriter.WriteHeader ResponseWriter.withStatus
  split_ifs <;> rfl

theorem WriteHeader_invalid (we : Option String) (code : Int) (hc : ¬ http.ValidCode code) :
    (freshWriter we).WriteHeader code = .error (Panic.invalidWriteHeaderCode code) := by
  have h1 : code < 100 ∨ 999 < code := by
    unfold http.ValidCode at hc
    omega
  simp [ResponseWriter.WriteHeader, freshWriter, h1]

theorem valid_400 : http.ValidCode http.StatusBadRequest := by decide

theorem valid_500 : http.ValidCode http.StatusInternalServerError := by decide

theorem valid_201 : http.ValidCode http.StatusCreated := by decide

theorem valid_204 : http.ValidCode http.StatusNoContent := by decide

theorem respond_valid {σ : Type} (w : ResponseWriter) (code : Int) (s : σ)
    (calls : List StoreCall) (hc : http.ValidCode code) :
    respond (w.WriteHeader code) s calls =
      .ok { w := w.withStatus code, store := s, calls := calls } := by
  rw [WriteHeader_valid w code hc]
  rfl

theorem respond_storeError {σ : Type} (we : Option String) (err : GoError) (s : σ)
    (calls : List StoreCall) :
    StoreErrorStatus err (respond (writeStoreError (freshWriter we) err) s calls) := by
  unfold writeStoreError
  cases h : errorsAsCustomError err with
  | some ce₀ =>
    have hvalid : http.ValidCode ce₀.HTTPStatusCode →
        ∃ out, respond ((freshWriter we).WriteHeader ce₀.HTTPStatusCode) s calls = .ok out ∧
          out.w.Code = ce₀.HTTPStatusCode := by
      intro hc
      exact ⟨_, respond_valid _ _ s calls hc, rfl⟩
    refine ⟨?_, ?_, ?_⟩
    · intro ce hce hc
      subst hce
      simp only [news.CustomError.toError, errorsAsCustomError, Option.some.injEq] at h
      subst h
      exact hvalid hc
    · intro _
      have hinvalid : ¬ http.ValidCode ce₀.HTTPStatusCode →
          ∃ f, respond ((freshWriter we).WriteHeader ce₀.HTTPStatusCode) s calls = .error f ∧
            f.panic = Panic.invalidWriteHeaderCode ce₀.HTTPStatusCode := by
        intro hc
        rw [WriteHeader_invalid we _ hc]
        exact ⟨_, rfl, rfl⟩
      exact ⟨ce₀, errorsAs_sound err ce₀ h, h, hvalid, hinvalid⟩
    · intro hno
      exact absurd (errorsAs_sound err ce₀ h) (hno ce₀)
  | none =>
    refine ⟨?_, ?_, ?_⟩
    · intro ce hce
      subst hce
      simp [news.CustomError.toError, errorsAsCustomError] at h
    · rintro ⟨ce, hw⟩
      exact absurd hw (errorsAs_complete err h ce)
    · intro _
      exact ⟨_, respond_valid _ _ s calls valid_500, rfl⟩

/-- C5, as amended: in each of the five handlers, when the store call returns an
error, the response status is the status of the `*news.CustomError` that the error
is or wraps (the one `errors.As` finds) if that status is a code `WriteHeader`
accepts (100 to 999), and 500 for every error that neither is nor wraps one; for a
`*news.CustomError` with any other code `WriteHeader` panics. -/
theorem store_error_status {σ : Type} (lib : Lib) (ns : NewsStorer σ) (we : Option String)
    (r : Request) (s : σ) (err : GoError) (s' : σ) :
    (∀ body n rec, lib.jsonDecode r.Body = .ok body → body.Validate lib = .ok (n, none) →
      ns.Create n s = ((rec, some err), s') →
      StoreErrorStatus err (PostNews lib ns (freshWriter we) r s)) ∧
    (∀ l, ns.FindAll s = ((l, some err), s') →
      StoreErrorStatus err (GetAllNews lib ns (freshWriter we) r s)) ∧
    (∀ id rec, lib.uuidParse r.news_id = .ok id → ns.FindByID id s = ((rec, some err), s') →
      StoreErrorStatus err (GetNewsByID lib ns (freshWriter we) r s)) ∧
    (∀ body rec, lib.jsonDecode r.Body = .ok body →
      body.Validate lib = .ok (some rec, none) →
      ns.UpdateByID rec.ID (some rec) s = (some err, s') →
      StoreErrorStatus err (UpdateNewsByID lib ns (freshWriter we) r s)) ∧
    (∀ id, lib.uuidParse r.news_id = .ok id → ns.DeleteByID id s = (some err, s') →
      StoreErrorStatus err (DeleteNewsByID lib ns (freshWriter we) r s)) := by
  refine ⟨?_, ?_, ?_, ?_, ?_⟩
  · intro body n rec hd hv hs
    have h : PostNews lib ns (freshWriter we) r s =
        respond (writeStoreError (freshWriter we) err) s' [StoreCall.Create n] := by
      simp only [PostNews, hd, hv, hs]
    rw [h]
    exact respond_storeError we err s' _
  · intro l hs
    have h : GetAllNews lib ns (freshWriter we) r s =
        respond (writeStoreError (freshWriter we) err) s' [StoreCall.FindAll] := by
      simp only [GetAllNews, hs]
    rw [h]
    exact respond_storeError we err s' _
  · intro id rec hp hs
    have h : GetNewsByID lib ns (freshWriter we) r s =
        respond (writeStoreError (freshWriter we) err) s' [StoreCall.FindByID id] := by
      simp only [GetNewsByID, hp, hs]
    rw [h]
    exact respond_storeError we err s' _
  · intro body rec hd hv hs
    have h : UpdateNewsByID lib ns (freshWriter we) r s =
        respond (writeStoreError (freshWriter we) err) s'
          [StoreCall.UpdateByID rec.ID (some rec)] := by
      simp only [UpdateNewsByID, hd, hv, hs]
    rw [h]
    exact respond_storeError we err s' _
  · intro id hp hs
    have h : DeleteNewsByID lib ns (freshWriter we) r s =
        respond (writeStoreError (freshWriter we) err) s' [StoreCall.DeleteByID id] := by
      simp only [DeleteNewsByID, hp, hs]
    rw [h]
    exact respond_storeError we err s' _

end handler

namespace sample

theorem decode_goodBodyText : testLib.jsonDecode goodBodyText = .ok goodReqBody := by
  simp [testLib]

set_option maxRecDepth 100000 in
theorem decode_badBodyText : testLib.jsonDecode badBodyText = .ok badReqBody := by
  have h : badBodyText ≠ goodBodyText := by decide
  simp [testLib, h]

/-- The test case "db custom error" of `Test_PostNews`: the store returns a
`*news.CustomError` with status 400, and the response status is 400. -/
theorem store_error_status_witness :
    ∃ out, handler.PostNews testLib
        (mockStorer (some (news.NewCustomError (some (GoError.errorString "some error"))
          http.StatusBadRequest).toError))
        handler.NewRecorder { Body := goodBodyText, news_id := "" } () = .ok out ∧
      out.w.Code = 400 :=
  ((handler.store_error_status testLib
    (mockStorer (some (news.NewCustomError (some (GoError.errorString "some error"))
      http.StatusBadRequest).toError)) none { Body := goodBodyText, news_id := "" } ()
    (news.NewCustomError (some (GoError.errorString "some error"))
      http.StatusBadRequest).toError ()).1 goodReqBody _ none decode_goodBodyText
    goodReqBody_validate rfl).1 _ rfl (by decide)

/-- C5 fails as stated: the store returns a `*news.CustomError` whose status code is
0. `PostNews` hands that code to `WriteHeader`, which panics, so there is no
response with status 0. -/
theorem PostNews_status_zero_panics :
    (mockStorer (some zeroStatusError)).Create
        (some (handler.acceptedRecord testLib goodReqBody createdAt "https://example.com"))
        () = ((none, some zeroStatusError), ()) ∧
    errorsAsCustomError zeroStatusError =
      some (news.NewCustomError (some (GoError.errorString "some error")) 0) ∧
    (news.NewCustomError (some (GoError.errorString "some error")) 0).HTTPStatusCode = 0 ∧
    handler.PostNews testLib (mockStorer (some zeroStatusError)) handler.NewRecorder
        { Body := goodBodyText, news_id := "" } () =
      .error { panic := Panic.invalidWriteHeaderCode 0
               store := ()
               calls := [handler.StoreCall.Create (some (handler.acceptedRecord testLib
                 goodReqBody createdAt "https://example.com"))] } ∧
    ¬ ∃ out, handler.PostNews testLib (mockStorer (some zeroStatusError))
        handler.NewRecorder { Body := goodBodyText, news_id := "" } () = .ok out ∧
      out.w.Code = 0 := by
  have hp : handler.PostNews testLib (mockStorer (some zeroStatusError))
      handler.NewRecorder { Body := goodBodyText, news_id := "" } () =
      .error { panic := Panic.invalidWriteHeaderCode 0
               store := ()
               calls := [handler.StoreCall.Create (some (handler.acceptedRecord testLib
                 goodReqBody createdAt "https://example.com"))] } := by
    simp only [handler.PostNews, decode_goodBodyText, goodReqBody_validate]
    rfl
  refine ⟨rfl, rfl, rfl, hp, ?_⟩
  rintro ⟨out, ho, _⟩
  rw [hp] at ho
  cases ho

end sample

namespace handler

theorem validate_error_defined (lib : Lib) (n : NewsPostReqBody) (r : Option news.Record)
    (e : GoError) (h : n.Validate lib = .ok (r, some e)) :
    r = none ∧ e.Error = .ok (String.intercalate "\n" (violations lib n)) := by
  rcases validate_cases lib n with ⟨_, t, u, _, _, hv⟩ | ⟨_, _, e₀, hv, hte⟩
  · rw [hv] at h
    cases h
  · rw [hv] at h
    cases h
    exact ⟨rfl, hte⟩

theorem WriteHeader_fresh (we : Option String) (code : Int) (hc : http.ValidCode code) :
    (freshWriter we).WriteHeader code =
      .ok { Code := code, wroteHeader := true, Body := "", writeErr := we } := by
  rw [WriteHeader_valid _ code hc]
  rfl

theorem Write_after_header (we : Option String) (code : Int) (text : String) :
    ResponseWriter.Write { Code := code, wroteHeader := true, Body := "", writeErr := we }
        text =
      ({ Code := code, wroteHeader := true, Body := text, writeErr := we }, we) := by
  simp [ResponseWriter.Write]

theorem respond_wrote {σ : Type} (w : ResponseWriter) (code : Int) (s : σ)
    (calls : List StoreCall) (hw : w.wroteHeader = true) :
    respond (w.WriteHeader code) s calls = .ok { w := w, store := s, calls := calls } := by
  simp [respond, ResponseWriter.WriteHeader, hw]

/-- C6: in `PostNews` and in `UpdateNewsByID`, a body that does not decode, or that
decodes to a request `Validate` rejects, gives status 400 with no call on the store
(and the store unchanged); when `Validate` rejects, the response body is the text of
the validation error. -/
theorem bad_body_status {σ : Type} (lib : Lib) (ns : NewsStorer σ) (we : Option String)
    (r : Request) (s : σ) :
    (∀ msg, lib.jsonDecode r.Body = .error msg →
      ∃ out, PostNews lib ns (freshWriter we) r s = .ok out ∧
        out.w.Code = http.StatusBadRequest ∧ out.calls = [] ∧ out.store = s) ∧
    (∀ body rec e, lib.jsonDecode r.Body = .ok body → body.Validate lib = .ok (rec, some e) →
      ∃ out text, PostNews lib ns (freshWriter we) r s = .ok out ∧
        out.w.Code = http.StatusBadRequest ∧ out.calls = [] ∧ out.store = s ∧
        e.Error = .ok text ∧ out.w.Body = text) ∧
    (∀ msg, lib.jsonDecode r.Body = .error msg →
      ∃ out, UpdateNewsByID lib ns (freshWriter we) r s = .ok out ∧
        out.w.Code = http.StatusBadRequest ∧ out.calls = [] ∧ out.store = s) ∧
    (∀ body rec e, lib.jsonDecode r.Body = .ok body → body.Validate lib = .ok (rec, some e) →
      ∃ out text, UpdateNewsByID lib ns (freshWriter we) r s = .ok out ∧
        out.w.Code = http.StatusBadRequest ∧ out.calls = [] ∧ out.store = s ∧
        e.Error = .ok text ∧ out.w.Body = text) := by
  refine ⟨?_, ?_, ?_, ?_⟩
  · intro msg hd
    refine ⟨{ w := (freshWriter we).withStatus http.StatusBadRequest
              store := s
              calls := [] }, ?_, rfl, rfl, rfl⟩
    simp only [PostNews, hd, respond_valid _ _ _ _ valid_400]
  · intro body rec e hd hv
    obtain ⟨_, hte⟩ := validate_error_defined lib body rec e hv
    refine ⟨{ w := { Code := 400
                     wroteHeader := true
                     Body := String.intercalate "\n" (violations lib body)
                     writeErr := we }
              store := s
              calls := [] }, _, ?_, rfl, rfl, rfl, hte, rfl⟩
    simp only [PostNews, hd, hv, hte, WriteHeader_fresh we _ valid_400, Write_after_header]
    cases we with
    | none => rfl
    | some e₁ => exact respond_wrote _ _ s [] rfl
  · intro msg hd
    refine ⟨{ w := (freshWriter we).withStatus http.StatusBadRequest
              store := s
              calls := [] }, ?_, rfl, rfl, rfl⟩
    simp only [UpdateNewsByID, hd, respond_valid _ _ _ _ valid_400]
  · intro body rec e hd hv
    obtain ⟨_, hte⟩ := validate_error_defined lib body rec e hv
    refine ⟨{ w := { Code := 400
                     wroteHeader := true
                     Body := String.intercalate "\n" (violations lib body)
                     writeErr := we }
              store := s
              calls := [] }, _, ?_, rfl, rfl, rfl, hte, rfl⟩
    simp only [UpdateNewsByID, hd, hv, hte, WriteHeader_fresh we _ valid_400,
      Write_after_header]
    cases we with
    | none => rfl
    | some e₁ => exact respond_wrote _ _ s [] rfl

/-- C7: in `GetNewsByID` and in `DeleteNewsByID`, a `news_id` path value that is
not a valid UUID gives status 400 with no call on the store (and the store
unchanged). -/
theorem invalid_id_status {σ : Type} (lib : Lib) (ns : NewsStorer σ) (we : Option String)
    (r : Request) (s : σ) (msg : String) (h : lib.uuidParse r.news_id = .error msg) :
    (∃ out, GetNewsByID lib ns (freshWriter we) r s = .ok out ∧
      out.w.Code = http.StatusBadRequest ∧ out.calls = [] ∧ out.store = s) ∧
    (∃ out, DeleteNewsByID lib ns (freshWriter we) r s = .ok out ∧
      out.w.Code = http.StatusBadRequest ∧ out.calls = [] ∧ out.store = s) := by
  constructor
  · refine ⟨{ w := (freshWriter we).withStatus http.StatusBadRequest
              store := s
              calls := [] }, ?_, rfl, rfl, rfl⟩
    simp only [GetNewsByID, h, respond_valid _ _ _ _ valid_400]
  · refine ⟨{ w := (freshWriter we).withStatus http.StatusBadRequest
              store := s
              calls := [] }, ?_, rfl, rfl, rfl⟩
    simp only [DeleteNewsByID, h, respond_valid _ _ _ _ valid_400]

end handler

namespace sample

theorem badReqBody_validate :
    badReqBody.Validate testLib =
      .ok (none, some (GoError.joinError
        [GoError.joinError [GoError.errorString "content is empty: "],
          GoError.errorString "tags cannot be empty"])) := by
  rfl

/-- The test case "invalid request body" of `Test_PostNews`: status 400, no call on
the store, and the two violations as the response body. -/
theorem bad_body_status_witness :
    ∃ out text, handler.PostNews testLib (mockStorer none) handler.NewRecorder
        { Body := badBodyText, news_id := "" } () = .ok out ∧
      out.w.Code = http.StatusBadRequest ∧ out.calls = [] ∧ out.store = () ∧
      (GoError.joinError [GoError.joinError [GoError.errorString "content is empty: "],
        GoError.errorString "tags cannot be empty"]).Error = .ok text ∧
      out.w.Body = text :=
  (handler.bad_body_status testLib (mockStorer none) none
    { Body := badBodyText, news_id := "" } ()).2.1 badReqBody none _ decode_badBodyText
    badReqBody_validate

/-- The test case "invalid news id" of `Test_GetNewsByID` and `Test_DeleteNewsByID`:
the path value "invalid-uuid" gives status 400 and no call on the store. -/
theorem invalid_id_status_witness :
    testLib.uuidParse "invalid-uuid" = .error "invalid UUID length: 12" ∧
    (∃ out, handler.GetNewsByID testLib (mockStorer none) handler.NewRecorder
        { Body := "", news_id := "invalid-uuid" } () = .ok out ∧
      out.w.Code = http.StatusBadRequest ∧ out.calls = [] ∧ out.store = ()) ∧
    (∃ out, handler.DeleteNewsByID testLib (mockStorer none) handler.NewRecorder
        { Body := "", news_id := "invalid-uuid" } () = .ok out ∧
      out.w.Code = http.StatusBadRequest ∧ out.calls = [] ∧ out.store = ()) :=
  ⟨rfl, handler.invalid_id_status testLib (mockStorer none) none
    { Body := "", news_id := "invalid-uuid" } () "invalid UUID length: 12" rfl⟩

end sample

namespace handler

theorem jsonEncode_fresh (we : Option String) (b : String) :
    jsonEncode (.ok b) (freshWriter we) =
      ({ Code := http.StatusOK, wroteHeader := true, Body := b ++ "\n", writeErr := we },
        we) := by
  simp [jsonEncode, ResponseWriter.Write, freshWriter]

/-- C8, as amended: when the request is well-formed and the store call returns no
error, the status is 201 for `PostNews`, 204 for `DeleteNewsByID` and 200 for
`UpdateNewsByID`; for `GetAllNews` and `GetNewsByID` it is 200 when the result
marshals to JSON, and 500 when marshalling it fails. -/
theorem success_status {σ : Type} (lib : Lib) (ns : NewsStorer σ) (we : Option String)
    (r : Request) (s s' : σ) :
    (∀ body n rec, lib.jsonDecode r.Body = .ok body → body.Validate lib = .ok (n, none) →
      ns.Create n s = ((rec, none), s') →
      ∃ out, PostNews lib ns (freshWriter we) r s = .ok out ∧
        out.w.Code = http.StatusCreated) ∧
    (∀ id, lib.uuidParse r.news_id = .ok id → ns.DeleteByID id s = (none, s') →
      ∃ out, DeleteNewsByID lib ns (freshWriter we) r s = .ok out ∧
        out.w.Code = http.StatusNoContent) ∧
    (∀ body rec, lib.jsonDecode r.Body = .ok body →
      body.Validate lib = .ok (some rec, none) →
      ns.UpdateByID rec.ID (some rec) s = (none, s') →
      ∃ out, UpdateNewsByID lib ns (freshWriter we) r s = .ok out ∧
        out.w.Code = http.StatusOK) ∧
    (∀ l, ns.FindAll s = ((l, none), s') →
      (∀ b, lib.jsonMarshalAll l = .ok b →
        ∃ out, GetAllNews lib ns (freshWriter we) r s = .ok out ∧
          out.w.Code = http.StatusOK) ∧
      (∀ msg, lib.jsonMarshalAll l = .error msg →
        ∃ out, GetAllNews lib ns (freshWriter we) r s = .ok out ∧
          out.w.Code = http.StatusInternalServerError)) ∧
    (∀ id rec, lib.uuidParse r.news_id = .ok id → ns.FindByID id s = ((rec, none), s') →
      (∀ b, lib.jsonMarshalOne rec = .ok b →
        ∃ out, GetNewsByID lib ns (freshWriter we) r s = .ok out ∧
          out.w.Code = http.StatusOK) ∧
      (∀ msg, lib.jsonMarshalOne rec = .error msg →
        ∃ out, GetNewsByID lib ns (freshWriter we) r s = .ok out ∧
          out.w.Code = http.StatusInternalServerError)) := by
  refine ⟨?_, ?_, ?_, ?_, ?_⟩
  · intro body n rec hd hv hs
    refine ⟨{ w := (freshWriter we).withStatus http.StatusCreated
              store := s'
              calls := [StoreCall.Create n] }, ?_, rfl⟩
    simp only [PostNews, hd, hv, hs, respond_valid _ _ _ _ valid_201]
  · intro id hp hs
    refine ⟨{ w := (freshWriter we).withStatus http.StatusNoContent
              store := s'
              calls := [StoreCall.DeleteByID id] }, ?_, rfl⟩
    simp only [DeleteNewsByID, hp, hs, respond_valid _ _ _ _ valid_204]
  · intro body rec hd hv hs
    refine ⟨{ w := freshWriter we
              store := s'
              calls := [StoreCall.UpdateByID rec.ID (some rec)] }, ?_, rfl⟩
    simp only [UpdateNewsByID, hd, hv, hs]
  · intro l hs
    constructor
    · intro b hb
      refine ⟨{ w := { Code := http.StatusOK
                       wroteHeader := true
                       Body := b ++ "\n"
                       writeErr := we }
                store := s'
                calls := [StoreCall.FindAll] }, ?_, rfl⟩
      simp only [GetAllNews, hs, hb, jsonEncode_fresh]
      cases we with
      | none => rfl
      | some e₁ => exact respond_wrote _ _ s' _ rfl
    · intro msg hm
      refine ⟨{ w := (freshWriter we).withStatus http.StatusInternalServerError
                store := s'
                calls := [StoreCall.FindAll] }, ?_, rfl⟩
      simp only [GetAllNews, hs, hm, jsonEncode, respond_valid _ _ _ _ valid_500]
  · intro id rec hp hs
    constructor
    · intro b hb
      refine ⟨{ w := { Code := http.StatusOK
                       wroteHeader := true
                       Body := b ++ "\n"
                       writeErr := we }
                store := s'
                calls := [StoreCall.FindByID id] }, ?_, rfl⟩
      simp only [GetNewsByID, hp, hs, hb, jsonEncode_fresh]
      cases we with
      | none => rfl
      | some e₁ => exact respond_wrote _ _ s' _ rfl
    · intro msg hm
      refine ⟨{ w := (freshWriter we).withStatus http.StatusInternalServerError
                store := s'
                calls := [StoreCall.FindByID id] }, ?_, rfl⟩
      simp only [GetNewsByID, hp, hs, hm, jsonEncode, respond_valid _ _ _ _ valid_500]

end handler

namespace sample

/-- C8 fails as stated: the store call of `GetAllNews` returns no error, the record
it returns was created in the year 10000, marshalling it fails, and the response
status is 500, not 200. -/
theorem GetAllNews_success_status_500 :
    farFutureStorer.FindAll () = ((some [some farFutureRecord], none), ()) ∧
    testLib.jsonMarshalAll (some [some farFutureRecord]) = .error yearErrorText ∧
    ∃ out, handler.GetAllNews testLib farFutureStorer handler.NewRecorder
        { Body := "", news_id := "" } () = .ok out ∧
      out.w.Code = http.StatusInternalServerError ∧ out.w.Code ≠ http.StatusOK := by
  refine ⟨rfl, rfl, _, rfl, rfl, ?_⟩
  decide

/-- The test case "success" of `Test_PostNews`: the store returns no error and the
status is 201. -/
theorem success_status_witness :
    ∃ out, handler.PostNews testLib (mockStorer none) handler.NewRecorder
        { Body := goodBodyText, news_id := "" } () = .ok out ∧
      out.w.Code = http.StatusCreated :=
  (handler.success_status testLib (mockStorer none) none
    { Body := goodBodyText, news_id := "" } () ()).1 goodReqBody _ none decode_goodBodyText
    goodReqBody_validate rfl

end sample

/-! ## The error type and the SQL-backed store -/

namespace news

/-- C9: `CustomError` pairs a cause with a status: for every error `e` and every
integer `s`, `NewCustomError(e, s)` has `HTTPStatusCode() = s`, `Unwrap() = e` and
`Error() = e.Error()` (also when read through the `error` interface). -/
theorem NewCustomError_pairs (e : GoError) (s : Int) :
    (NewCustomError (some e) s).HTTPStatusCode = s ∧
    (NewCustomError (some e) s).Unwrap = some e ∧
    (NewCustomError (some e) s).Error = e.Error ∧
    (NewCustomError (some e) s).toError.Error = e.Error := by
  refine ⟨rfl, rfl, rfl, ?_⟩
  simp [NewCustomError, CustomError.toError, GoError.Error]

/-- The errors of the SQL-backed store, path by path: `Create`, `FindByID`,
`FindAll` and `DeleteByID` return nil or a `*CustomError` around the non-nil
database error, with status 404 or 500; so does `UpdateByID` when the statement or
`RowsAffected` fails; when zero rows are affected `UpdateByID` returns a
`*CustomError` with status 404 whose cause is nil. -/
theorem Store_errors {σ : Type} (s : Store σ) (st : σ) :
    (∀ newID n res e st', s.Create newID n st = .ok ((res, some e), st') →
      ∃ cause, e = (NewCustomError (some cause) http.StatusInternalServerError).toError) ∧
    (∀ id e, (s.FindByID id st).1.2 = some e →
      ∃ cause status, e = (NewCustomError (some cause) status).toError ∧
        (status = http.StatusNotFound ∨ status = http.StatusInternalServerError)) ∧
    (∀ e, (s.FindAll st).1.2 = some e →
      ∃ cause, e = (NewCustomError (some cause) http.StatusInternalServerError).toError) ∧
    (∀ id e, (s.DeleteByID id st).1 = some e →
      ∃ cause, e = (NewCustomError (some cause) http.StatusInternalServerError).toError) ∧
    (∀ id n e, (s.UpdateByID id n st).1 = some e →
      (∃ cause, e = (NewCustomError (some cause) http.StatusInternalServerError).toError) ∨
      e = (NewCustomError none http.StatusNotFound).toError) := by
  refine ⟨?_, ?_, ?_, ?_, ?_⟩
  · intro newID n res e st' h
    simp only [Store.Create] at h
    split at h
    · simp at h
    · split at h
      · simp only [Except.ok.injEq, Prod.mk.injEq, Option.some.injEq] at h
        exact ⟨_, h.1.2.symm⟩
      · simp at h
  · intro id e h
    simp only [Store.FindByID] at h
    split at h
    · split at h
      · simp only [Option.some.injEq] at h
        exact ⟨_, _, h.symm, Or.inl rfl⟩
      · simp only [Option.some.injEq] at h
        exact ⟨_, _, h.symm, Or.inr rfl⟩
    · simp at h
  · intro e h
    simp only [Store.FindAll] at h
    split at h
    · simp only [Option.some.injEq] at h
      exact ⟨_, h.symm⟩
    · simp at h
  · intro id e h
    simp only [Store.DeleteByID] at h
    split at h
    · split at h
      · simp at h
      · simp only [Option.some.injEq] at h
        exact ⟨_, h.symm⟩
    · simp at h
  · intro id n e h
    simp only [Store.UpdateByID] at h
    split at h
    · simp only [Option.some.injEq] at h
      exact Or.inl ⟨_, h.symm⟩
    · split at h
      · simp only [Option.some.injEq] at h
        exact Or.inl ⟨_, h.symm⟩
      · split at h
        · simp only [Option.some.injEq] at h
          exact Or.inr h.symm
        · simp at h

end news

namespace sample

/-- C10 at its failing input: `UpdateByID` on a database whose update statement
runs without error and affects zero rows returns a `*CustomError` with status 404
whose cause is nil, not a database error; calling `Error()` on it dereferences
nil. -/
theorem UpdateByID_zero_rows_nil_cause (id : UUID) (n : Option news.Record) :
    (news.NewStore (updateRowsDB 0)).UpdateByID id n () =
      (some (news.NewCustomError none http.StatusNotFound).toError, ()) ∧
    (news.NewCustomError none http.StatusNotFound).Unwrap = none ∧
    (news.NewCustomError none http.StatusNotFound).Error = .error Panic.nilDereference ∧
    (news.NewCustomError none http.StatusNotFound).toError.Error =
      .error Panic.nilDereference := by
  refine ⟨rfl, rfl, rfl, rfl⟩

end sample

/-! ## The SQL-backed store, method by method -/

namespace news

/-- C11: `Store.FindByID`. When the query fails with an error that is the no-rows
error (`errors.Is(err, sql.ErrNoRows)`), the result is a nil record and a
`*CustomError` with status 404 whose message is that error's message (for
`sql.ErrNoRows` itself, "sql: no rows in result set"); when the query fails with
any other error the `*CustomError` has status 500; when the query succeeds the
record is returned with a nil error. -/
theorem FindByID_results {σ : Type} (s : Store σ) (id : UUID) (st st' : σ) :
    (∀ err, s.db.selectByID id st = (.error err, st') → errorsIsNoRows err = true →
      s.FindByID id st =
        ((none, some (NewCustomError (some err) http.StatusNotFound).toError), st') ∧
      (NewCustomError (some err) http.StatusNotFound).HTTPStatusCode = 404 ∧
      (NewCustomError (some err) http.StatusNotFound).toError.Error = err.Error) ∧
    (s.db.selectByID id st = (.error GoError.errNoRows, st') →
      s.FindByID id st =
        ((none, some (NewCustomError (some GoError.errNoRows) http.StatusNotFound).toError),
          st') ∧
      (NewCustomError (some GoError.errNoRows) http.StatusNotFound).toError.Error =
        .ok "sql: no rows in result set") ∧
    (∀ err, s.db.selectByID id st = (.error err, st') → errorsIsNoRows err = false →
      s.FindByID id st =
        ((none, some (NewCustomError (some err) http.StatusInternalServerError).toError),
          st') ∧
      (NewCustomError (some err) http.StatusInternalServerError).HTTPStatusCode = 500) ∧
    (∀ rec, s.db.selectByID id st = (.ok rec, st') →
      s.FindByID id st = ((some rec, none), st')) := by
  refine ⟨?_, ?_, ?_, ?_⟩
  · intro err h hn
    refine ⟨?_, rfl, ?_⟩
    · simp only [Store.FindByID, h, hn, if_true]
    · simp [NewCustomError, CustomError.toError, GoError.Error]
  · intro h
    refine ⟨?_, ?_⟩
    · simp only [Store.FindByID, h, errorsIsNoRows, if_true]
    · simp [NewCustomError, CustomError.toError, GoError.Error]
  · intro err h hn
    refine ⟨?_, rfl⟩
    simp only [Store.FindByID, h, hn, Bool.false_eq_true, if_false]
  · intro rec h
    simp only [Store.FindByID, h]

/-- C12: `Store.UpdateByID`. When the statement executes without error and affects
zero rows the result is a `*CustomError` with status 404; when at least one row is
affected the result is nil; when executing the statement or reading the
affected-row count fails the result is a `*CustomError` with status 500. -/
theorem UpdateByID_results {σ : Type} (s : Store σ) (id : UUID) (n : Option Record)
    (st st' : σ) :
    (∀ r, s.db.update id n st = (.ok r, st') → r.RowsAffected = .ok 0 →
      ∃ ce : CustomError, s.UpdateByID id n st = (some ce.toError, st') ∧
        ce.HTTPStatusCode = 404 ∧ errorsAsCustomError ce.toError = some ce) ∧
    (∀ r rows, s.db.update id n st = (.ok r, st') → r.RowsAffected = .ok rows → 1 ≤ rows →
      s.UpdateByID id n st = (none, st')) ∧
    (∀ err, s.db.update id n st = (.error err, st') →
      s.UpdateByID id n st =
        (some (NewCustomError (some err) http.StatusInternalServerError).toError, st') ∧
      (NewCustomError (some err) http.StatusInternalServerError).HTTPStatusCode = 500) ∧
    (∀ r err, s.db.update id n st = (.ok r, st') → r.RowsAffected = .error err →
      s.UpdateByID id n st =
        (some (NewCustomError (some err) http.StatusInternalServerError).toError, st') ∧
      (NewCustomError (some err) http.StatusInternalServerError).HTTPStatusCode = 500) := by
  refine ⟨?_, ?_, ?_, ?_⟩
  · intro r h hr
    refine ⟨NewCustomError none http.StatusNotFound, ?_, rfl, rfl⟩
    simp only [Store.UpdateByID, h, hr, if_true]
  · intro r rows h hr hrows
    have h0 : rows ≠ 0 := by omega
    simp only [Store.UpdateByID, h, hr, h0, if_false]
  · intro err h
    refine ⟨?_, rfl⟩
    simp only [Store.UpdateByID, h]
  · intro r err h hr
    refine ⟨?_, rfl⟩
    simp only [Store.UpdateByID, h, hr]

/-- C13: `Store.DeleteByID` is not an error on a missing record. When the delete
reports the no-rows error it returns nil, exactly as when the delete reports no
error; it returns an error only when the database fails with an error that is not
the no-rows error, and that error is a `*CustomError` with status 500. -/
theorem DeleteByID_results {σ : Type} (s : Store σ) (id : UUID) (st : σ) :
    (∀ err st', s.db.delete id st = (some err, st') → errorsIsNoRows err = true →
      s.DeleteByID id st = (none, st')) ∧
    (∀ st', s.db.delete id st = (none, st') → s.DeleteByID id st = (none, st')) ∧
    (∀ err st', s.db.delete id st = (some err, st') → errorsIsNoRows err = false →
      s.DeleteByID id st =
        (some (NewCustomError (some err) http.StatusInternalServerError).toError, st') ∧
      (NewCustomError (some err) http.StatusInternalServerError).HTTPStatusCode = 500) ∧
    (∀ e, (s.DeleteByID id st).1 = some e →
      ∃ err, (s.db.delete id st).1 = some err ∧ errorsIsNoRows err = false ∧
        e = (NewCustomError (some err) http.StatusInternalServerError).toError) := by
  refine ⟨?_, ?_, ?_, ?_⟩
  · intro err st' h hn
    simp only [Store.DeleteByID, h, hn, if_true]
  · intro st' h
    simp only [Store.DeleteByID, h]
  · intro err st' h hn
    refine ⟨?_, rfl⟩
    simp only [Store.DeleteByID, h, hn, Bool.false_eq_true, if_false]
  · intro e h
    rcases hd : s.db.delete id st with ⟨_ | err, st'⟩
    · simp [Store.DeleteByID, hd] at h
    · cases hn : errorsIsNoRows err
      · simp only [Store.DeleteByID, hd, hn, Bool.false_eq_true, if_false,
          Option.some.injEq] at h
        exact ⟨err, rfl, hn, h.symm⟩
      · simp [Store.DeleteByID, hd, hn] at h

/-- C14: `Store.Create`. The record handed to the insert is the input record with
its `ID` replaced by the newly generated identifier, whatever `ID` it came with; if
the insert fails the result is a nil record and a `*CustomError` with status 500
whose message is the database error's message; if it succeeds the result is that
record, as the insert scanned it back, with a nil error. -/
theorem Create_results {σ : Type} (s : Store σ) (newID : UUID) (n : Record) (st st' : σ) :
    (∀ oldID, s.Create newID (some { n with ID := oldID }) st = s.Create newID (some n) st) ∧
    (∀ err, s.db.insert { n with ID := newID } st = (.error err, st') →
      s.Create newID (some n) st =
        .ok ((none, some (NewCustomError (some err) http.StatusInternalServerError).toError),
          st') ∧
      (NewCustomError (some err) http.StatusInternalServerError).HTTPStatusCode = 500 ∧
      (NewCustomError (some err) http.StatusInternalServerError).toError.Error = err.Error) ∧
    (∀ row, s.db.insert { n with ID := newID } st = (.ok row, st') →
      s.Create newID (some n) st = .ok ((some row, none), st')) := by
  refine ⟨?_, ?_, ?_⟩
  · intro oldID
    rfl
  · intro err h
    refine ⟨?_, rfl, ?_⟩
    · simp only [Store.Create, h]
    · simp [NewCustomError, CustomError.toError, GoError.Error]
  · intro row h
    simp only [Store.Create, h]

end news

/-! ## The in-memory store -/

namespace store

theorem first_split {α : Type} (h : Heap α) (id : UUID) (l : List Ptr) :
    ((∀ p ∈ l, (h p).ID ≠ id) ∧ findFirst h id l = none ∧ indexOfID h id l = none) ∨
    (∃ pre p post, l = pre ++ p :: post ∧ (∀ q ∈ pre, (h q).ID ≠ id) ∧ (h p).ID = id ∧
      findFirst h id l = some p ∧ indexOfID h id l = some pre.length) := by
  induction l with
  | nil => exact Or.inl ⟨by simp, rfl, rfl⟩
  | cons n rest ih =>
    by_cases hn : (h n).ID = id
    · refine Or.inr ⟨[], n, rest, rfl, by simp, hn, ?_, ?_⟩
      · simp [findFirst, hn]
      · simp [indexOfID, hn]
    · rcases ih with ⟨hall, hf, hi⟩ | ⟨pre, p, post, hl, hpre, hp, hf, hi⟩
      · refine Or.inl ⟨?_, ?_, ?_⟩
        · intro p hp
          rcases List.mem_cons.mp hp with rfl | hp
          · exact hn
          · exact hall p hp
        · simp [findFirst, hn, hf]
        · simp [indexOfID, hn, hi]
      · refine Or.inr ⟨n :: pre, p, post, by simp [hl], ?_, hp, ?_, ?_⟩
        · intro q hq
          rcases List.mem_cons.mp hq with rfl | hq
          · exact hn
          · exact hpre q hq
        · simp [findFirst, hn, hf]
        · simp [indexOfID, hn, hi]

theorem holds_iff_not_all {α : Type} (s : Store) (h : Heap α) (id : UUID) :
    ¬ s.Holds h id ↔ ∀ p ∈ s.n, (h p).ID ≠ id := by
  simp [Store.Holds]

theorem split_cases {α : Type} (s : Store) (h : Heap α) (id : UUID) :
    (¬ s.Holds h id ∧ findFirst h id s.n = none ∧ indexOfID h id s.n = none) ∨
    (s.Holds h id ∧ ∃ pre p post, s.FirstAt h id pre p post ∧
      findFirst h id s.n = some p ∧ indexOfID h id s.n = some pre.length) := by
  rcases first_split h id s.n with ⟨hall, hf, hi⟩ | ⟨pre, p, post, hl, hpre, hp, hf, hi⟩
  · exact Or.inl ⟨(holds_iff_not_all s h id).mpr hall, hf, hi⟩
  · refine Or.inr ⟨⟨p, ?_, hp⟩, pre, p, post, ⟨hl, hpre, hp⟩, hf, hi⟩
    rw [hl]
    simp

theorem take_drop_middle (pre post : List Ptr) (p : Ptr) :
    (pre ++ p :: post).take pre.length ++ (pre ++ p :: post).drop (pre.length + 1) =
      pre ++ post := by
  simp

theorem set_middle (pre post : List Ptr) (p q : Ptr) :
    (pre ++ p :: post).set pre.length q = pre ++ q :: post := by
  simp

/-- C20: `FindByID(id)` returns the error "news not found" and a nil item exactly
when no stored item has that id; otherwise it returns, with a nil error, the first
item in list order whose `ID` is `id`; the stored list is unchanged either way. -/
theorem FindByID_spec {α : Type} (s : Store) (h : Heap α) (id : UUID) :
    ((s.FindByID id h).1 = (none, some (GoError.errorString "news not found")) ↔
      ¬ s.Holds h id) ∧
    (s.Holds h id → ∃ pre p post, s.FirstAt h id pre p post ∧
      (s.FindByID id h).1 = (some p, none)) ∧
    (s.FindByID id h).2 = s := by
  rcases split_cases s h id with ⟨hno, hf, _⟩ | ⟨hyes, pre, p, post, hfirst, hf, _⟩
  · refine ⟨⟨fun _ => hno, fun _ => ?_⟩, fun hy => absurd hy hno, ?_⟩
    · simp [Store.FindByID, hf]
    · simp [Store.FindByID, hf]
  · refine ⟨⟨fun hr => ?_, fun hn => absurd hyes hn⟩, fun _ => ⟨pre, p, post, hfirst, ?_⟩, ?_⟩
    · simp [Store.FindByID, hf] at hr
    · simp [Store.FindByID, hf]
    · simp [Store.FindByID, hf]

/-- C18: `DeleteByID(id)`. If some stored item has that id, it returns nil and the
new list is the old list without the first item having that id, the other items in
their order (one item fewer); if no stored item has that id, it returns the error
"news not found" and the list is unchanged. -/
theorem DeleteByID_spec {α : Type} (s : Store) (h : Heap α) (id : UUID) :
    (s.Holds h id → ∃ pre p post, s.FirstAt h id pre p post ∧
      s.DeleteByID id h = (none, { n := pre ++ post }) ∧
      (pre ++ post).length + 1 = s.n.length) ∧
    (¬ s.Holds h id →
      s.DeleteByID id h = (some (GoError.errorString "news not found"), s)) := by
  rcases split_cases s h id with ⟨hno, _, hi⟩ | ⟨hyes, pre, p, post, hfirst, _, hi⟩
  · refine ⟨fun hy => absurd hy hno, fun _ => ?_⟩
    simp [Store.DeleteByID, hi]
  · refine ⟨fun _ => ⟨pre, p, post, hfirst, ?_, ?_⟩, fun hn => absurd hyes hn⟩
    · simp only [Store.DeleteByID, hi]
      rw [hfirst.1, take_drop_middle]
    · rw [hfirst.1]
      simp only [List.length_append, List.length_cons]
      omega

/-- C19: `UpdateByID(news)`. If some stored item has the `ID` of `news`, it returns
nil and the new list is the old list with the first item of that `ID` replaced by
`news` at the same position (same length, every other position unchanged); if no
stored item has that `ID`, it returns the error "not found" and the list is
unchanged. -/
theorem UpdateByID_spec {α : Type} (s : Store) (h : Heap α) (news : Ptr) :
    (s.Holds h (h news).ID → ∃ pre q post, s.FirstAt h (h news).ID pre q post ∧
      s.UpdateByID (some news) h = .ok (none, { n := pre ++ news :: post }) ∧
      (pre ++ news :: post).length = s.n.length) ∧
    (¬ s.Holds h (h news).ID →
      s.UpdateByID (some news) h = .ok (some (GoError.errorString "not found"), s)) := by
  rcases split_cases s h (h news).ID with ⟨hno, _, hi⟩ | ⟨hyes, pre, q, post, hfirst, _, hi⟩
  · refine ⟨fun hy => absurd hy hno, fun _ => ?_⟩
    cases hs : s.n with
    | nil => simp [Store.UpdateByID, hs]
    | cons a l =>
      rw [hs] at hi
      simp [Store.UpdateByID, hs, hi]
  · refine ⟨fun _ => ⟨pre, q, post, hfirst, ?_, ?_⟩, fun hn => absurd hyes hn⟩
    · cases hs : s.n with
      | nil =>
        have := hfirst.1
        rw [hs] at this
        simp at this
      | cons a l =>
        have hl := hfirst.1
        rw [hs] at hi hl
        simp only [Store.UpdateByID, hs, hi]
        rw [hl, set_middle]
    · rw [hfirst.1]
      simp

end store

namespace store

theorem findFirst_middle {α : Type} (h : Heap α) (id : UUID) (pre post : List Ptr) (p : Ptr)
    (hpre : ∀ q ∈ pre, (h q).ID ≠ id) (hp : (h p).ID = id) :
    findFirst h id (pre ++ p :: post) = some p := by
  induction pre with
  | nil => simp [findFirst, hp]
  | cons a pre ih =>
    have ha : (h a).ID ≠ id := hpre a (List.mem_cons_self _ _)
    have ih' := ih (fun q hq => hpre q (List.mem_cons_of_mem _ hq))
    simp [findFirst, ha, ih']

theorem findFirst_some {α : Type} (h : Heap α) (id : UUID) (l : List Ptr) (p : Ptr)
    (hf : findFirst h id l = some p) : p ∈ l ∧ (h p).ID = id := by
  induction l with
  | nil => simp [findFirst] at hf
  | cons a l ih =>
    by_cases ha : (h a).ID = id
    · simp only [findFirst, ha, if_true, Option.some.injEq] at hf
      subst hf
      exact ⟨List.mem_cons_self _ _, ha⟩
    · simp only [findFirst, ha, if_false] at hf
      exact ⟨List.mem_cons_of_mem _ (ih hf).1, (ih hf).2⟩

theorem update_then_find {α : Type} (t : Store) (g : Heap α) (m : Ptr) (t' : Store)
    (hu : t.UpdateByID (some m) g = .ok (none, t')) :
    (t'.FindByID (g m).ID g).1 = (some m, none) := by
  rcases split_cases t g (g m).ID with ⟨_, _, hi⟩ | ⟨_, pre, q, post, hfirst, _, hi⟩
  · cases hs : t.n with
    | nil => simp [Store.UpdateByID, hs] at hu
    | cons a l =>
      rw [hs] at hi
      simp [Store.UpdateByID, hs, hi] at hu
  · cases hs : t.n with
    | nil =>
      have := hfirst.1
      rw [hs] at this
      simp at this
    | cons a l =>
      have hl := hfirst.1
      rw [hs] at hi hl
      simp only [Store.UpdateByID, hs, hi, Except.ok.injEq, Prod.mk.injEq, true_and] at hu
      rw [hl, set_middle] at hu
      subst hu
      simp [Store.FindByID, findFirst_middle g (g m).ID pre post m hfirst.2.1 rfl]

theorem update_succeeds {α : Type} (t : Store) (g : Heap α) (m : Ptr)
    (hh : t.Holds g (g m).ID) :
    ∃ t', t.UpdateByID (some m) g = .ok (none, t') ∧
      (t'.FindByID (g m).ID g).1 = (some m, none) := by
  rcases split_cases t g (g m).ID with ⟨hno, _, _⟩ | ⟨_, pre, q, post, hfirst, _, hi⟩
  · exact absurd hh hno
  · cases hs : t.n with
    | nil =>
      have := hfirst.1
      rw [hs] at this
      simp at this
    | cons a l =>
      have hu : t.UpdateByID (some m) g = .ok (none, { n := (a :: l).set pre.length m }) := by
        rw [hs] at hi
        simp [Store.UpdateByID, hs, hi]
      exact ⟨_, hu, update_then_find t g m _ hu⟩

/-- C16: the round trip of the in-memory store. If the identifier that `Create`
generates is not held by a stored item, then `Create(news)` returns `news`, now
carrying that identifier, and `FindByID` of that identifier returns the same item;
`UpdateByID(m)` with an `m` that carries that identifier then succeeds, and
`FindByID` of the identifier returns `m` afterwards. In any state, `UpdateByID(m)`
succeeds when a stored item has the `ID` of `m`, and after any successful
`UpdateByID(m)` the call `FindByID` of the `ID` of `m` returns `m`. -/
theorem Create_FindByID_UpdateByID {α : Type} (s : Store) (h : Heap α) (newID : UUID)
    (news : Ptr) (hfresh : ¬ s.Holds h newID) :
    ∃ h' s', s.Create newID (some news) h = .ok ((some news, none), h', s') ∧
      (h' news).ID = newID ∧
      (s'.FindByID newID h').1 = (some news, none) ∧
      (∀ m, (h' m).ID = newID →
        ∃ s₂, s'.UpdateByID (some m) h' = .ok (none, s₂) ∧
          (s₂.FindByID newID h').1 = (some m, none)) ∧
      (∀ (t : Store) (g : Heap α) (m : Ptr), t.Holds g (g m).ID →
        ∃ t', t.UpdateByID (some m) g = .ok (none, t') ∧
          (t'.FindByID (g m).ID g).1 = (some m, none)) ∧
      (∀ (t : Store) (g : Heap α) (m : Ptr) (t' : Store),
        t.UpdateByID (some m) g = .ok (none, t') →
        (t'.FindByID (g m).ID g).1 = (some m, none)) := by
  have hnews : ((h.setID news newID) news).ID = newID := by simp [Heap.setID]
  refine ⟨h.setID news newID, { n := s.n ++ [news] }, rfl, hnews, ?_, ?_, ?_, ?_⟩
  · cases hf : findFirst (h.setID news newID) newID (s.n ++ [news]) with
    | none =>
      rcases first_split (h.setID news newID) newID (s.n ++ [news]) with
        ⟨hall, _, _⟩ | ⟨_, _, _, _, _, _, hf', _⟩
      · exact absurd hnews (hall news (by simp))
      · rw [hf] at hf'
        cases hf'
    | some p =>
      obtain ⟨hmem, hid⟩ := findFirst_some _ _ _ _ hf
      have hp : p = news := by
        by_contra hne
        have hps : p ∈ s.n := by
          rcases List.mem_append.mp hmem with hps | hps
          · exact hps
          · exact absurd (by simpa using hps) hne
        have : (h p).ID = newID := by simpa [Heap.setID, hne] using hid
        exact hfresh ⟨p, hps, this⟩
      subst hp
      simp [Store.FindByID, hf]
  · intro m hm
    have hh : Store.Holds { n := s.n ++ [news] } (h.setID news newID)
        ((h.setID news newID) m).ID := ⟨news, by simp, by rw [hnews, hm]⟩
    have := update_succeeds _ _ m hh
    rwa [hm] at this
  · intro t g m hh
    exact update_succeeds t g m hh
  · intro t g m t' hu
    exact update_then_find t g m t' hu

end store

/-! ## The logger in the context -/

namespace logger

theorem loggerOf_CtxWithLogger (ctx : Context) (l : LoggerPtr) :
    loggerOf (CtxWithLogger ctx (some l)) = some (some l) := by
  unfold CtxWithLogger
  cases hc : loggerOf ctx with
  | none => simp [loggerOf, Context.Value]
  | some ctxLog =>
    by_cases heq : ctxLog = some l
    · simp [heq, hc]
    · simp [heq, loggerOf, Context.Value]

/-- C17: for every context `ctx` and every non-nil logger `l`,
`FromContext(CtxWithLogger(ctx, l))` is `l`; `CtxWithLogger(ctx, nil)` is `ctx`
itself; and the context that `CtxWithLogger` returns holds a logger exactly when the
logger passed in is non-nil or `ctx` already held one. -/
theorem CtxWithLogger_FromContext (ctx : Context) (l : LoggerPtr) (newLogger : LoggerPtr)
    (logger : Option LoggerPtr) :
    FromContext newLogger (CtxWithLogger ctx (some l)) = some l ∧
    CtxWithLogger ctx none = ctx ∧
    (HoldsLogger (CtxWithLogger ctx logger) ↔ logger ≠ none ∨ HoldsLogger ctx) := by
  refine ⟨?_, rfl, ?_⟩
  · simp [FromContext, loggerOf_CtxWithLogger]
  · cases logger with
    | none => simp [CtxWithLogger]
    | some l₁ => simp [HoldsLogger, loggerOf_CtxWithLogger]

end logger

/-! ## The two stores side by side -/

/-- C15, as amended: on an identifier that is not stored, the in-memory store and
the SQL-backed store both report failure for `FindByID` (the query reporting an
error) and for `UpdateByID` (the statement affecting zero rows); for `DeleteByID`
they differ: the in-memory store reports the error "news not found", the SQL-backed
store reports success whenever the delete reports no error or the no-rows error. -/
theorem missing_id_results {σ α : Type} (s : news.Store σ) (st : σ) (m : store.Store)
    (h : store.Heap α) (id : UUID) (hmiss : ¬ m.Holds h id) :
    ((m.FindByID id h).1.2 ≠ none ∧
      ∀ err st', s.db.selectByID id st = (.error err, st') →
        (s.FindByID id st).1.2 ≠ none) ∧
    (∀ item : store.Ptr, (h item).ID = id →
      (∃ e, m.UpdateByID (some item) h = .ok (some e, m)) ∧
      ∀ rec r st', s.db.update id rec st = (.ok r, st') → r.RowsAffected = .ok 0 →
        (s.UpdateByID id rec st).1 ≠ none) ∧
    ((m.DeleteByID id h).1 = some (GoError.errorString "news not found") ∧
      (∀ st', s.db.delete id st = (none, st') → (s.DeleteByID id st).1 = none) ∧
      (∀ err st', s.db.delete id st = (some err, st') → errorsIsNoRows err = true →
        (s.DeleteByID id st).1 = none)) := by
  rcases store.split_cases m h id with ⟨_, hf, hi⟩ | ⟨hyes, _⟩
  · refine ⟨⟨?_, ?_⟩, ?_, ?_, ?_, ?_⟩
    · simp [store.Store.FindByID, hf]
    · intro err st' hq
      cases hn : errorsIsNoRows err <;> simp [news.Store.FindByID, hq, hn]
    · intro item hitem
      refine ⟨⟨GoError.errorString "not found", ?_⟩, ?_⟩
      · subst hitem
        cases hs : m.n with
        | nil => simp [store.Store.UpdateByID, hs]
        | cons a l =>
          rw [hs] at hi
          simp [store.Store.UpdateByID, hs, hi]
      · intro rec r st' hq hr
        simp [news.Store.UpdateByID, hq, hr]
    · simp [store.Store.DeleteByID, hi]
    · intro st' hq
      simp [news.Store.DeleteByID, hq]
    · intro err st' hq hn
      simp [news.Store.DeleteByID, hq, hn]
  · exact absurd hyes hmiss

namespace sample

/-- C15 fails as stated: on the empty in-memory store `DeleteByID` of an identifier
reports the error "news not found", while the SQL-backed store, on a database whose
delete statement reports no error, reports success for the same request. -/
theorem DeleteByID_missing_id_differs :
    (store.New.DeleteByID testID addrHeap).1 = some (GoError.errorString "news not found") ∧
    (updateRowsDB 0).delete testID () = (none, ()) ∧
    ((news.NewStore (updateRowsDB 0)).DeleteByID testID ()).1 = none := by
  refine ⟨rfl, rfl, rfl⟩

theorem addr9_missing : ¬ twoItems.Holds addrHeap ⟨9⟩ := by
  simp [store.Store.Holds, twoItems, addrHeap]

/-- The store holding the items 1 and 2, asked for the identifier 9, next to a
database without a row of that identifier. -/
theorem missing_id_results_witness :
    ¬ twoItems.Holds addrHeap ⟨9⟩ ∧
    (twoItems.FindByID ⟨9⟩ addrHeap).1.2 ≠ none ∧
    (twoItems.DeleteByID ⟨9⟩ addrHeap).1 = some (GoError.errorString "news not found") ∧
    ((news.NewStore (updateRowsDB 0)).DeleteByID ⟨9⟩ ()).1 = none :=
  have hw := missing_id_results (news.NewStore (updateRowsDB 0)) () twoItems addrHeap ⟨9⟩
    addr9_missing
  ⟨addr9_missing, hw.1.1, hw.2.2.1, hw.2.2.2.1 () rfl⟩

/-- The query of `FindByID` reporting `sql.ErrNoRows`: a nil record and status 404
with the message of the no-rows error (the case "not found" of
`TestStore_FindByID`). -/
theorem FindByID_results_witness :
    (news.NewStore (updateRowsDB 0)).FindByID testID () =
        ((none, some (news.NewCustomError (some GoError.errNoRows)
          http.StatusNotFound).toError), ()) ∧
      (news.NewCustomError (some GoError.errNoRows) http.StatusNotFound).toError.Error =
        .ok "sql: no rows in result set" :=
  (news.FindByID_results (news.NewStore (updateRowsDB 0)) testID () ()).2.1 rfl

/-- The update statement affecting zero rows: status 404 (the case "not found" of
`TestStore_UpdatedByID`). -/
theorem UpdateByID_results_witness :
    ∃ ce : news.CustomError,
      (news.NewStore (updateRowsDB 0)).UpdateByID testID (some farFutureRecord) () =
        (some ce.toError, ()) ∧
      ce.HTTPStatusCode = 404 ∧ errorsAsCustomError ce.toError = some ce :=
  (news.UpdateByID_results (news.NewStore (updateRowsDB 0)) testID (some farFutureRecord)
    () ()).1 _ rfl rfl

/-- The delete statement reporting no error for an identifier without a row: nil
(the case "not found" of `TestStore_DeleteByID`). -/
theorem DeleteByID_results_witness :
    (news.NewStore (updateRowsDB 0)).DeleteByID testID () = (none, ()) :=
  (news.DeleteByID_results (news.NewStore (updateRowsDB 0)) testID ()).2.1 () rfl

/-- An insert that succeeds: the record comes back with the generated identifier,
whatever identifier it came with. -/
theorem Create_results_witness :
    (news.NewStore (updateRowsDB 0)).Create testID (some { farFutureRecord with ID := ⟨7⟩ })
        () =
      .ok ((some { farFutureRecord with ID := testID }, none), ()) :=
  ((news.Create_results (news.NewStore (updateRowsDB 0)) testID farFutureRecord () ()).1
    ⟨7⟩).trans
    ((news.Create_results (news.NewStore (updateRowsDB 0)) testID farFutureRecord
      () ()).2.2 _ rfl)

/-- The store holding the items 1 and 2: the item 2 is found and is the first of
its identifier. -/
theorem FindByID_spec_witness :
    twoItems.Holds addrHeap ⟨2⟩ ∧
    ∃ pre p post, twoItems.FirstAt addrHeap ⟨2⟩ pre p post ∧
      (twoItems.FindByID ⟨2⟩ addrHeap).1 = (some p, none) :=
  have hh : twoItems.Holds addrHeap ⟨2⟩ := ⟨⟨2⟩, by simp [twoItems], rfl⟩
  ⟨hh, (store.FindByID_spec twoItems addrHeap ⟨2⟩).2.1 hh⟩

/-- The store holding the items 1 and 2: deleting the identifier 1 leaves one
item. -/
theorem DeleteByID_spec_witness :
    twoItems.Holds addrHeap ⟨1⟩ ∧
    ∃ pre p post, twoItems.FirstAt addrHeap ⟨1⟩ pre p post ∧
      twoItems.DeleteByID ⟨1⟩ addrHeap = (none, { n := pre ++ post }) ∧
      (pre ++ post).length + 1 = twoItems.n.length :=
  have hh : twoItems.Holds addrHeap ⟨1⟩ := ⟨⟨1⟩, by simp [twoItems], rfl⟩
  ⟨hh, (store.DeleteByID_spec twoItems addrHeap ⟨1⟩).1 hh⟩

/-- The store holding the items 1 and 2: updating with the item at address 9,
whose identifier nothing stored has, reports "not found". -/
theorem UpdateByID_spec_witness :
    twoItems.UpdateByID (some ⟨9⟩) addrHeap =
      .ok (some (GoError.errorString "not found"), twoItems) :=
  (store.UpdateByID_spec twoItems addrHeap ⟨9⟩).2 addr9_missing

/-- The store holding the items 1 and 2: creating the item at address 5 with the
fresh identifier 9, then finding it; then updating with the item at address 9, which
carries the identifier 9 too, puts that item in the place of the one created, and
`FindByID` returns it. -/
theorem Create_FindByID_UpdateByID_witness :
    ¬ twoItems.Holds addrHeap ⟨9⟩ ∧
    ∃ h' s', twoItems.Create ⟨9⟩ (some ⟨5⟩) addrHeap = .ok ((some ⟨5⟩, none), h', s') ∧
      (h' ⟨5⟩).ID = ⟨9⟩ ∧ (s'.FindByID ⟨9⟩ h').1 = (some ⟨5⟩, none) ∧
      ∃ s₂, s'.UpdateByID (some ⟨9⟩) h' = .ok (none, s₂) ∧
        s₂.n = [⟨1⟩, ⟨2⟩, ⟨9⟩] ∧ (s₂.FindByID ⟨9⟩ h').1 = (some ⟨9⟩, none) := by
  obtain ⟨h', s', hc, hid, hf, hu, _⟩ :=
    store.Create_FindByID_UpdateByID twoItems addrHeap ⟨9⟩ ⟨5⟩ addr9_missing
  have hc' := hc
  simp only [store.Store.Create, Except.ok.injEq, Prod.mk.injEq, true_and] at hc'
  obtain ⟨hh, hs⟩ := hc'
  have h9 : (h' ⟨9⟩).ID = ⟨9⟩ := by
    rw [← hh]
    rfl
  obtain ⟨s₂, hu₂, hf₂⟩ := hu ⟨9⟩ h9
  refine ⟨addr9_missing, h', s', hc, hid, hf, s₂, hu₂, ?_, hf₂⟩
  have hu₃ := hu₂
  rw [← hh, ← hs] at hu₃
  have he : (store.Store.UpdateByID { n := twoItems.n ++ [⟨5⟩] } (some ⟨9⟩)
      (store.Heap.setID addrHeap ⟨5⟩ ⟨9⟩)) = .ok (none, { n := [⟨1⟩, ⟨2⟩, ⟨9⟩] }) := rfl
  rw [he] at hu₃
  simp only [Except.ok.injEq, Prod.mk.injEq, true_and] at hu₃
  rw [← hu₃]

/-- A context that holds no logger, given the logger at address 3: `FromContext`
finds that logger afterwards. -/
theorem CtxWithLogger_FromContext_witness :
    logger.FromContext ⟨0⟩ (logger.CtxWithLogger logger.Background (some ⟨3⟩)) = some ⟨3⟩ :=
  (logger.CtxWithLogger_FromContext logger.Background ⟨3⟩ ⟨0⟩ none).1

end sample

/-! ## Sequences of calls on the in-memory store -/

namespace store

theorem map_setID_of_not_mem {α : Type} (h : Heap α) (p : Ptr) (id : UUID) (l : List Ptr)
    (hp : p ∉ l) :
    l.map (fun q => (h.setID p id q).ID) = l.map (fun q => (h q).ID) := by
  apply List.map_congr_left
  intro q hq
  have hne : q ≠ p := fun heq => hp (heq ▸ hq)
  simp [Heap.setID, hne]

theorem setID_self {α : Type} (h : Heap α) (p : Ptr) (id : UUID) :
    (h.setID p id p).ID = id ∧ (h.setID p id p).fields = (h p).fields := by
  simp [Heap.setID]

theorem setID_other {α : Type} (h : Heap α) (p q : Ptr) (id : UUID) (hne : q ≠ p) :
    h.setID p id q = h q := by
  simp [Heap.setID, hne]

theorem holds_iff_mem_map {α : Type} (s : Store) (h : Heap α) (id : UUID) :
    s.Holds h id ↔ id ∈ s.n.map (fun p => (h p).ID) := by
  simp [Store.Holds]

theorem create_run {α : Type} (s : Store) (h : Heap α) (newID : UUID) (news : Ptr) :
    (Call.Create newID news).run h s = .ok (h.setID news newID, { n := s.n ++ [news] }) := by
  rfl

theorem delete_run {α : Type} (s : Store) (h : Heap α) (id : UUID) :
    (¬ s.Holds h id ∧
      s.DeleteByID id h = (some (GoError.errorString "news not found"), s)) ∨
    (∃ pre p post, s.FirstAt h id pre p post ∧
      s.DeleteByID id h = (none, { n := pre ++ post })) := by
  rcases split_cases s h id with ⟨hno, _, hi⟩ | ⟨_, pre, p, post, hfirst, _, hi⟩
  · exact Or.inl ⟨hno, by simp [Store.DeleteByID, hi]⟩
  · refine Or.inr ⟨pre, p, post, hfirst, ?_⟩
    simp only [Store.DeleteByID, hi]
    rw [hfirst.1, take_drop_middle]

theorem update_run {α : Type} (s : Store) (h : Heap α) (news : Ptr) :
    (s.UpdateByID (some news) h = .ok (some (GoError.errorString "not found"), s)) ∨
    (∃ pre q post, s.FirstAt h (h news).ID pre q post ∧
      s.UpdateByID (some news) h = .ok (none, { n := pre ++ news :: post })) := by
  rcases split_cases s h (h news).ID with ⟨_, _, hi⟩ | ⟨_, pre, q, post, hfirst, _, hi⟩
  · left
    cases hs : s.n with
    | nil => simp [Store.UpdateByID, hs]
    | cons a l =>
      rw [hs] at hi
      simp [Store.UpdateByID, hs, hi]
  · refine Or.inr ⟨pre, q, post, hfirst, ?_⟩
    cases hs : s.n with
    | nil =>
      have := hfirst.1
      rw [hs] at this
      simp at this
    | cons a l =>
      have hl := hfirst.1
      rw [hs] at hi hl
      simp only [Store.UpdateByID, hs, hi]
      rw [hl, set_middle]

theorem step_unique {α : Type} (c : Call) (h : Heap α) (s : Store) (hu : s.UniqueIDs h)
    (hf : c.FreshID h s) (hn : c.NewItem s) :
    ∃ h' s', c.run h s = .ok (h', s') ∧ s'.UniqueIDs h' := by
  cases c with
  | Create newID news =>
    refine ⟨_, _, create_run s h newID news, ?_⟩
    have hfresh : newID ∉ s.n.map (fun p => (h p).ID) :=
      fun hm => hf ((holds_iff_mem_map s h newID).mpr hm)
    have hnew : news ∉ s.n := hn
    unfold Store.UniqueIDs at hu ⊢
    simp only [List.map_append, List.map_cons, List.map_nil]
    rw [map_setID_of_not_mem h news newID s.n hnew, (setID_self h news newID).1]
    rw [List.nodup_append]
    refine ⟨hu, List.nodup_singleton _, ?_⟩
    intro x hx hx'
    have : x = newID := by simpa using hx'
    exact hfresh (this ▸ hx)
  | FindAll => exact ⟨h, s, rfl, hu⟩
  | FindByID id =>
    refine ⟨h, s, ?_, hu⟩
    simp only [Call.run, Store.FindByID]
    split <;> rfl
  | DeleteByID id =>
    rcases delete_run s h id with ⟨_, hd⟩ | ⟨pre, p, post, hfirst, hd⟩
    · exact ⟨h, s, by simp [Call.run, hd], hu⟩
    · refine ⟨h, { n := pre ++ post }, by simp [Call.run, hd], ?_⟩
      unfold Store.UniqueIDs at hu ⊢
      rw [hfirst.1] at hu
      have hsub : (pre ++ post).Sublist (pre ++ p :: post) :=
        List.Sublist.append_left (List.sublist_cons_self p post) pre
      exact hu.sublist (hsub.map _)
  | UpdateByID news =>
    rcases update_run s h news with hd | ⟨pre, q, post, hfirst, hd⟩
    · exact ⟨h, s, by simp [Call.run, hd], hu⟩
    · refine ⟨h, { n := pre ++ news :: post }, by simp [Call.run, hd], ?_⟩
      unfold Store.UniqueIDs at hu ⊢
      rw [hfirst.1] at hu
      simpa [hfirst.2.2] using hu

theorem runCalls_unique {α : Type} (cs : List Call) (h : Heap α) (s : Store)
    (hu : s.UniqueIDs h) (hf : FreshIDs cs h s) (hn : NewItems cs h s) :
    ∃ h' s', runCalls cs h s = .ok (h', s') ∧ s'.UniqueIDs h' := by
  induction cs generalizing h s with
  | nil => exact ⟨h, s, rfl, hu⟩
  | cons c cs ih =>
    obtain ⟨h₁, s₁, hrun, hu₁⟩ := step_unique c h s hu hf.1 hn.1
    have hf₁ : FreshIDs cs h₁ s₁ := by
      have := hf.2
      rw [hrun] at this
      exact this
    have hn₁ : NewItems cs h₁ s₁ := by
      have := hn.2
      rw [hrun] at this
      exact this
    obtain ⟨h', s', hrest, hu'⟩ := ih h₁ s₁ hu₁ hf₁ hn₁
    refine ⟨h', s', ?_, hu'⟩
    simp only [runCalls, hrun, hrest]

theorem delete_then_find {α : Type} (s : Store) (h : Heap α) (id : UUID)
    (hu : s.UniqueIDs h) (hd : (s.DeleteByID id h).1 = none) :
    ((s.DeleteByID id h).2.FindByID id h).1 =
      (none, some (GoError.errorString "news not found")) := by
  rcases delete_run s h id with ⟨_, hdel⟩ | ⟨pre, p, post, hfirst, hdel⟩
  · rw [hdel] at hd
    cases hd
  · rw [hdel]
    unfold Store.UniqueIDs at hu
    rw [hfirst.1] at hu
    simp only [List.map_append, List.map_cons, List.nodup_append, List.nodup_cons,
      List.mem_map, List.mem_cons] at hu
    have hnone : ∀ q ∈ pre ++ post, (h q).ID ≠ id := by
      intro q hq hqid
      rcases List.mem_append.mp hq with hq | hq
      · exact hfirst.2.1 q hq hqid
      · exact hu.2.1.1 ⟨q, hq, by rw [hqid, hfirst.2.2]⟩
    rcases first_split h id (pre ++ post) with ⟨_, hf, _⟩ | ⟨pre₁, p₁, post₁, hl, _, hp₁, _, _⟩
    · simp [Store.FindByID, hf]
    · exact absurd hp₁ (hnone p₁ (by rw [hl]; simp))

end store

namespace store

theorem runCalls_creates {α : Type} (l : List (UUID × Ptr)) (h : Heap α) (s : Store) :
    ∃ h' s', runCalls (creates l) h s = .ok (h', s') ∧ s'.n = s.n ++ l.map Prod.snd := by
  induction l generalizing h s with
  | nil => exact ⟨h, s, rfl, by simp⟩
  | cons x l ih =>
    obtain ⟨h', s', hrun, hn⟩ := ih (h.setID x.2 x.1) { n := s.n ++ [x.2] }
    refine ⟨h', s', ?_, ?_⟩
    · simp only [creates, List.map_cons, runCalls, create_run]
      exact hrun
    · rw [hn]
      simp

/-- C21, as amended: `Create` of a non-nil item never fails and appends. After
`Create(news)` the list is the old list followed by `news` (one entry more, the
old entries in their order), `news` carries the generated `ID`, and every object
other than `news` is unchanged, so the items stored before are unchanged when `news`
is not one of them; `FindAll` on a store built from `New()` by `k` calls of `Create`
returns the `k` items in creation order, and `FindAll` on `New()` returns the empty
list. -/
theorem Create_appends (α : Type) :
    (∀ (s : Store) (h : Heap α) (newID : UUID) (news : Ptr),
      ∃ h' s', s.Create newID (some news) h = .ok ((some news, none), h', s') ∧
        s'.n = s.n ++ [news] ∧ s'.n.length = s.n.length + 1 ∧
        (h' news).ID = newID ∧ (h' news).fields = (h news).fields ∧
        (∀ q, q ≠ news → h' q = h q) ∧
        (news ∉ s.n → ∀ q ∈ s.n, h' q = h q)) ∧
    (∀ (l : List (UUID × Ptr)) (h : Heap α),
      ∃ h' s', runCalls (creates l) h New = .ok (h', s') ∧
        s'.FindAll.1 = (l.map Prod.snd, none)) ∧
    New.FindAll.1 = ([], none) := by
  refine ⟨?_, ?_, rfl⟩
  · intro s h newID news
    refine ⟨h.setID news newID, { n := s.n ++ [news] }, rfl, rfl, by simp,
      (setID_self h news newID).1, (setID_self h news newID).2,
      fun q hq => setID_other h news q newID hq, ?_⟩
    intro hnot q hq
    exact setID_other h news q newID (fun heq => hnot (heq ▸ hq))
  · intro l h
    obtain ⟨h', s', hrun, hn⟩ := runCalls_creates l h New
    refine ⟨h', s', hrun, ?_⟩
    simp [Store.FindAll, hn, New]

/-- C23, as amended: if every `Create` of a sequence of calls generates an
identifier that differs from the identifiers stored at that time, and is given an
item that is not stored at that time, then the state reached from `New()` by the
sequence has no two entries with the same `ID`, and in it a successful
`DeleteByID(id)` is followed by a `FindByID(id)` that returns "news not found". -/
theorem UniqueIDs_reachable {α : Type} (cs : List Call) (h : Heap α)
    (hf : FreshIDs cs h New) (hn : NewItems cs h New) :
    ∃ h' s', runCalls cs h New = .ok (h', s') ∧ s'.UniqueIDs h' ∧
      ∀ id, (s'.DeleteByID id h').1 = none →
        ((s'.DeleteByID id h').2.FindByID id h').1 =
          (none, some (GoError.errorString "news not found")) := by
  have h0 : New.UniqueIDs h := by simp [Store.UniqueIDs, New]
  obtain ⟨h', s', hrun, hu⟩ := runCalls_unique cs h New h0 hf hn
  exact ⟨h', s', hrun, hu, fun id hd => delete_then_find s' h' id hu hd⟩

end store

namespace sample

/-- C21 fails as stated: `Create` called twice with the same item. The item stored
by the first call carries the identifier 7; after the second call the list holds
that item twice and the entry stored first carries the identifier 9. -/
theorem Create_twice_changes_item :
    ∃ h₁ s₁ h₂ s₂,
      store.New.Create ⟨7⟩ (some ⟨5⟩) addrHeap = .ok ((some ⟨5⟩, none), h₁, s₁) ∧
      s₁.Create ⟨9⟩ (some ⟨5⟩) h₁ = .ok ((some ⟨5⟩, none), h₂, s₂) ∧
      s₁.n = [⟨5⟩] ∧ s₂.n = [⟨5⟩, ⟨5⟩] ∧
      (h₁ ⟨5⟩).ID = ⟨7⟩ ∧ (h₂ ⟨5⟩).ID = ⟨9⟩ ∧ h₂ ⟨5⟩ ≠ h₁ ⟨5⟩ := by
  refine ⟨addrHeap.setID ⟨5⟩ ⟨7⟩, { n := [⟨5⟩] },
    (addrHeap.setID ⟨5⟩ ⟨7⟩).setID ⟨5⟩ ⟨9⟩, { n := [⟨5⟩, ⟨5⟩] },
    rfl, rfl, rfl, rfl, rfl, rfl, ?_⟩
  decide

/-- C23 fails as stated: `Create` called twice with the same item, each time with
an identifier that nothing stored has. The two entries of the store then have the
same `ID`, `DeleteByID` of it succeeds, and `FindByID` of it still finds the item. -/
theorem Create_twice_Delete_Find :
    store.FreshIDs [store.Call.Create ⟨7⟩ ⟨5⟩, store.Call.Create ⟨9⟩ ⟨5⟩] addrHeap
      store.New ∧
    ∃ h' s', store.runCalls [store.Call.Create ⟨7⟩ ⟨5⟩, store.Call.Create ⟨9⟩ ⟨5⟩] addrHeap
        store.New = .ok (h', s') ∧
      s'.n = [⟨5⟩, ⟨5⟩] ∧ ¬ s'.UniqueIDs h' ∧
      (s'.DeleteByID ⟨9⟩ h').1 = none ∧
      ((s'.DeleteByID ⟨9⟩ h').2.FindByID ⟨9⟩ h').1 = (some ⟨5⟩, none) := by
  refine ⟨?_, (addrHeap.setID ⟨5⟩ ⟨7⟩).setID ⟨5⟩ ⟨9⟩, { n := [⟨5⟩, ⟨5⟩] },
    rfl, rfl, ?_, rfl, rfl⟩
  · simp [store.FreshIDs, store.Call.FreshID, store.Call.run, store.Store.Create,
      store.Store.Holds, store.New, store.Heap.setID]
  · simp [store.Store.UniqueIDs]

theorem threeCalls_fresh :
    store.FreshIDs [store.Call.Create ⟨7⟩ ⟨5⟩, store.Call.Create ⟨9⟩ ⟨6⟩,
      store.Call.DeleteByID ⟨7⟩] addrHeap store.New := by
  simp [store.FreshIDs, store.Call.FreshID, store.Call.run, store.Store.Create,
    store.Store.Holds, store.New, store.Heap.setID]

theorem threeCalls_newItems :
    store.NewItems [store.Call.Create ⟨7⟩ ⟨5⟩, store.Call.Create ⟨9⟩ ⟨6⟩,
      store.Call.DeleteByID ⟨7⟩] addrHeap store.New := by
  simp [store.NewItems, store.Call.NewItem, store.Call.run, store.Store.Create, store.New]

/-- Two different items created with the identifiers 7 and 9, then the first
deleted: the store reached has no two entries with the same `ID`. -/
theorem UniqueIDs_reachable_witness :
    store.FreshIDs [store.Call.Create ⟨7⟩ ⟨5⟩, store.Call.Create ⟨9⟩ ⟨6⟩,
      store.Call.DeleteByID ⟨7⟩] addrHeap store.New ∧
    store.NewItems [store.Call.Create ⟨7⟩ ⟨5⟩, store.Call.Create ⟨9⟩ ⟨6⟩,
      store.Call.DeleteByID ⟨7⟩] addrHeap store.New ∧
    ∃ h' s', store.runCalls [store.Call.Create ⟨7⟩ ⟨5⟩, store.Call.Create ⟨9⟩ ⟨6⟩,
        store.Call.DeleteByID ⟨7⟩] addrHeap store.New = .ok (h', s') ∧
      s'.UniqueIDs h' ∧
      ∀ id, (s'.DeleteByID id h').1 = none →
        ((s'.DeleteByID id h').2.FindByID id h').1 =
          (none, some (GoError.errorString "news not found")) :=
  ⟨threeCalls_fresh, threeCalls_newItems,
    store.UniqueIDs_reachable _ addrHeap threeCalls_fresh threeCalls_newItems⟩

/-- Two items created from `New()`: `FindAll` returns them in creation order. -/
theorem Create_appends_witness :
    ∃ h' s', store.runCalls (store.creates [(⟨7⟩, ⟨5⟩), (⟨9⟩, ⟨6⟩)]) addrHeap store.New =
        .ok (h', s') ∧
      s'.FindAll.1 = ([⟨5⟩, ⟨6⟩], none) :=
  (store.Create_appends Unit).2.1 [(⟨7⟩, ⟨5⟩), (⟨9⟩, ⟨6⟩)] addrHeap

end sample

/-! ## What the handlers hand to the store -/

namespace handler

theorem callsOf_respond {σ : Type} (w : Except Panic ResponseWriter) (s : σ)
    (calls : List StoreCall) : callsOf (respond w s calls) = calls := by
  cases w <;> rfl

theorem storeOf_respond {σ : Type} (w : Except Panic ResponseWriter) (s : σ)
    (calls : List StoreCall) : storeOf (respond w s calls) = s := by
  cases w <;> rfl

theorem respond_accepted {σ : Type} (we : Option String) (err : GoError) (s : σ)
    (calls : List StoreCall) (h : StatusAccepted (some err)) :
    ∃ w, respond (writeStoreError (freshWriter we) err) s calls =
      .ok { w := w, store := s, calls := calls } := by
  unfold writeStoreError
  cases hce : errorsAsCustomError err with
  | some ce => exact ⟨_, respond_valid _ _ s calls (h err ce rfl hce)⟩
  | none => exact ⟨_, respond_valid _ _ s calls valid_500⟩

/-- C22: for every request body that `Validate` accepts, `PostNews` calls `Create`
of the store exactly once, with the record `Validate` returned, and
`UpdateNewsByID` calls `UpdateByID` of the store exactly once, with that record and
with the identifier of the request body (which is the record's `ID`); neither makes
another call on the store, and the store is left as that one call leaves it. The
handler returns whenever the store call gives no error or an error whose status
`WriteHeader` accepts; the calls and the store are the same when `WriteHeader`
panics on the status of a store error. -/
theorem dispatch_calls {σ : Type} (lib : Lib) (ns : NewsStorer σ) (we : Option String)
    (r : Request) (s : σ) (body : NewsPostReqBody) (n : Option news.Record)
    (hd : lib.jsonDecode r.Body = .ok body) (hv : body.Validate lib = .ok (n, none)) :
    ((StatusAccepted (ns.Create n s).1.2 →
        ∃ out, PostNews lib ns (freshWriter we) r s = .ok out ∧
          out.calls = [StoreCall.Create n] ∧ out.store = (ns.Create n s).2) ∧
      callsOf (PostNews lib ns (freshWriter we) r s) = [StoreCall.Create n] ∧
      storeOf (PostNews lib ns (freshWriter we) r s) = (ns.Create n s).2) ∧
    (∃ rec, n = some rec ∧ rec.ID = body.ID ∧
      (StatusAccepted (ns.UpdateByID body.ID (some rec) s).1 →
        ∃ out, UpdateNewsByID lib ns (freshWriter we) r s = .ok out ∧
          out.calls = [StoreCall.UpdateByID body.ID (some rec)] ∧
          out.store = (ns.UpdateByID body.ID (some rec) s).2) ∧
      callsOf (UpdateNewsByID lib ns (freshWriter we) r s) =
        [StoreCall.UpdateByID body.ID (some rec)] ∧
      storeOf (UpdateNewsByID lib ns (freshWriter we) r s) =
        (ns.UpdateByID body.ID (some rec) s).2) := by
  constructor
  · rcases hc : ns.Create n s with ⟨⟨rec, _ | err⟩, s'⟩
    · have h : PostNews lib ns (freshWriter we) r s =
          .ok { w := (freshWriter we).withStatus http.StatusCreated
                store := s'
                calls := [StoreCall.Create n] } := by
        simp only [PostNews, hd, hv, hc, respond_valid _ _ _ _ valid_201]
      rw [h]
      exact ⟨fun _ => ⟨_, rfl, rfl, rfl⟩, rfl, rfl⟩
    · have h : PostNews lib ns (freshWriter we) r s =
          respond (writeStoreError (freshWriter we) err) s' [StoreCall.Create n] := by
        simp only [PostNews, hd, hv, hc]
      rw [h]
      refine ⟨fun ha => ?_, callsOf_respond _ _ _, storeOf_respond _ _ _⟩
      obtain ⟨w, hw⟩ := respond_accepted we err s' [StoreCall.Create n] ha
      rw [hw]
      exact ⟨_, rfl, rfl, rfl⟩
  · rcases validate_cases lib body with ⟨_, t, u, _, _, hacc⟩ | ⟨_, _, e, hrej, _⟩
    · rw [hacc] at hv
      simp only [Except.ok.injEq, Prod.mk.injEq, and_true] at hv
      subst hv
      have hid : (acceptedRecord lib body t u).ID = body.ID := rfl
      refine ⟨acceptedRecord lib body t u, rfl, hid, ?_⟩
      rcases hc : ns.UpdateByID body.ID (some (acceptedRecord lib body t u)) s with
        ⟨_ | err, s'⟩
      · have h : UpdateNewsByID lib ns (freshWriter we) r s =
            .ok { w := freshWriter we
                  store := s'
                  calls := [StoreCall.UpdateByID body.ID
                    (some (acceptedRecord lib body t u))] } := by
          simp only [UpdateNewsByID, hd, hacc, hid, hc]
        rw [h]
        exact ⟨fun _ => ⟨_, rfl, rfl, rfl⟩, rfl, rfl⟩
      · have h : UpdateNewsByID lib ns (freshWriter we) r s =
            respond (writeStoreError (freshWriter we) err) s'
              [StoreCall.UpdateByID body.ID (some (acceptedRecord lib body t u))] := by
          simp only [UpdateNewsByID, hd, hacc, hid, hc]
        rw [h]
        refine ⟨fun ha => ?_, callsOf_respond _ _ _, storeOf_respond _ _ _⟩
        obtain ⟨w, hw⟩ := respond_accepted we err s' _ ha
        rw [hw]
        exact ⟨_, rfl, rfl, rfl⟩
    · rw [hrej] at hv
      cases hv

end handler

namespace news

/-- C24 at its failing input: when the update statement executes without error and
affects zero rows, the error `UpdateByID` returns is a `*CustomError` whose cause is
nil, and `Error()` on it dereferences nil. -/
theorem UpdateByID_zero_rows_Error {σ : Type} (s : Store σ) (id : UUID) (n : Option Record)
    (st st' : σ) (r : SqlResult) (h : s.db.update id n st = (.ok r, st'))
    (hr : r.RowsAffected = .ok 0) :
    ∃ ce : CustomError, s.UpdateByID id n st = (some ce.toError, st') ∧
      ce.err = none ∧ ce.Error = .error Panic.nilDereference ∧
      ce.toError.Error = .error Panic.nilDereference := by
  refine ⟨NewCustomError none http.StatusNotFound, ?_, rfl, rfl, rfl⟩
  simp only [Store.UpdateByID, h, hr, if_true]

end news

namespace sample

/-- The body of the "success" cases of `handler_test.go`: one call of `Create` and
one call of `UpdateByID`, with the record `Validate` returned and its identifier.
With a store that answers a `*news.CustomError` of status 0, `WriteHeader` panics,
and the one call of `Create` has been made all the same. -/
theorem dispatch_calls_witness :
    (∃ out, handler.PostNews testLib (mockStorer none) handler.NewRecorder
        { Body := goodBodyText, news_id := "" } () = .ok out ∧
      out.calls = [handler.StoreCall.Create (some (handler.acceptedRecord testLib goodReqBody
        createdAt "https://example.com"))] ∧
      out.store = ()) ∧
    (∃ rec out, some (handler.acceptedRecord testLib goodReqBody createdAt
        "https://example.com") = some rec ∧ rec.ID = goodReqBody.ID ∧
      handler.UpdateNewsByID testLib (mockStorer none) handler.NewRecorder
        { Body := goodBodyText, news_id := "" } () = .ok out ∧
      out.calls = [handler.StoreCall.UpdateByID goodReqBody.ID (some rec)] ∧
      out.store = ()) ∧
    handler.callsOf (handler.PostNews testLib (mockStorer (some zeroStatusError))
        handler.NewRecorder { Body := goodBodyText, news_id := "" } ()) =
      [handler.StoreCall.Create (some (handler.acceptedRecord testLib goodReqBody
        createdAt "https://example.com"))] ∧
    ¬ ∃ out, handler.PostNews testLib (mockStorer (some zeroStatusError))
        handler.NewRecorder { Body := goodBodyText, news_id := "" } () = .ok out := by
  have hnone : StatusAccepted none := fun err ce he => by cases he
  have h := handler.dispatch_calls testLib (mockStorer none) none
    { Body := goodBodyText, news_id := "" } () goodReqBody _ decode_goodBodyText
    goodReqBody_validate
  have h₀ := handler.dispatch_calls testLib (mockStorer (some zeroStatusError)) none
    { Body := goodBodyText, news_id := "" } () goodReqBody _ decode_goodBodyText
    goodReqBody_validate
  obtain ⟨rec, hn, hid, hok, _, _⟩ := h.2
  obtain ⟨out, ho⟩ := hok hnone
  refine ⟨h.1.1 hnone, ⟨rec, out, hn, hid, ho⟩, h₀.1.2.1, ?_⟩
  rintro ⟨out₀, ho₀⟩
  have hp : handler.PostNews testLib (mockStorer (some zeroStatusError))
      handler.NewRecorder { Body := goodBodyText, news_id := "" } () =
      .error { panic := Panic.invalidWriteHeaderCode 0
               store := ()
               calls := [handler.StoreCall.Create (some (handler.acceptedRecord testLib
                 goodReqBody createdAt "https://example.com"))] } := by
    simp only [handler.PostNews, decode_goodBodyText, goodReqBody_validate]
    rfl
  rw [hp] at ho₀
  cases ho₀

/-- The case "not found" of `TestStore_UpdatedByID`: the update affects zero rows
and the error returned has a nil cause. -/
theorem UpdateByID_zero_rows_Error_witness :
    ∃ ce : news.CustomError,
      (news.NewStore (updateRowsDB 0)).UpdateByID testID (some farFutureRecord) () =
        (some ce.toError, ()) ∧
      ce.err = none ∧ ce.Error = .error Panic.nilDereference ∧
      ce.toError.Error = .error Panic.nilDereference :=
  news.UpdateByID_zero_rows_Error (news.NewStore (updateRowsDB 0)) testID
    (some farFutureRecord) () () _ rfl rfl

end sample
